import Mathlib

/-
  Verification of the Cortex monitoring system (wayfind/Cortex).

  Shallow embedding of the components referenced by the checked claims:
  the probe-side issue classifier, L1 auto-fixer and executor
  (src/cortex/probe/{classifier,fixer,executor}.py), the local delivery
  queue (src/cortex/common/queue_manager.py), the monitor-side ingest
  dispatch, decision engine, alert aggregator and topology service
  (src/cortex/monitor/...).

  Wall-clock times are modelled as natural numbers (the alert-dedup
  development counts in minutes, matching timedelta(minutes=30) in the
  source).  Python float percentages are modelled as rationals; Python
  strings as Lean strings.  Handlers and external services perform I/O in
  the source; their outcomes are supplied as explicit oracle arguments so
  that the control flow around them is the object of proof.
-/

namespace Cortex

/- ===================== common enums (src/cortex/common/models.py) ===================== -/

/-- Severity of an issue ("low" / "medium" / "high" / "critical"). -/
inductive Severity
  | low
  | medium
  | high
  | critical
deriving DecidableEq, Repr

/-- Issue tier ("L1" / "L2" / "L3"). -/
inductive IssueLevel
  | L1
  | L2
  | L3
deriving DecidableEq, Repr

/-- Outcome of a remediation action; the source strings are
"success" / "failed" / "partial" (the last one is named `incomplete` here). -/
inductive ActionResult
  | success
  | failed
  | incomplete
deriving DecidableEq, Repr

/-- Overall agent status ("healthy" / "warning" / "critical"). -/
inductive AgentStatus
  | healthy
  | warning
  | critical
deriving DecidableEq, Repr

/-- IssueReport (models.py).  `details` is a free-form map in the source;
string keys/values suffice for every code path modelled here.
`timestamp` is a wall-clock instant (Nat). -/
structure IssueReport where
  level : IssueLevel
  type : String
  description : String
  severity : Severity
  proposed_fix : Option String := none
  risk_assessment : Option String := none
  details : List (String × String) := []
  timestamp : Nat := 0
deriving DecidableEq, Repr

/-- ActionReport (models.py): evidence of a remediation attempt. -/
structure ActionReport where
  level : IssueLevel
  action : String
  result : ActionResult
  details : String
  timestamp : Nat := 0
deriving DecidableEq, Repr

/-- SystemMetrics (models.py).  Only the three percentage gauges are read by
the executor's analysis and status logic; load average / uptime / io fields
are carried opaquely by the report and omitted. -/
structure SystemMetrics where
  cpu_percent : ℚ
  memory_percent : ℚ
  disk_percent : ℚ
deriving DecidableEq, Repr

/-- ProbeReport (models.py): the message shipped to the monitor. -/
structure ProbeReport where
  agent_id : String
  timestamp : Nat
  status : AgentStatus
  metrics : SystemMetrics
  issues : List IssueReport
  actions_taken : List ActionReport
deriving DecidableEq, Repr

/- ===================== classifier (src/cortex/probe/classifier.py) ===================== -/

/-- `IssueClassifier.L1_ISSUE_TYPES` (safe to auto-fix). -/
def L1_ISSUE_TYPES : List String :=
  ["disk_space_low", "temp_files_cleanup", "log_rotation_needed",
   "cache_cleanup", "old_package_cleanup"]

/-- `IssueClassifier.L2_ISSUE_TYPES` (need decision approval). -/
def L2_ISSUE_TYPES : List String :=
  ["service_down", "service_failed", "process_crashed",
   "config_drift", "certificate_expiring", "memory_leak"]

/-- `IssueClassifier.determine_level`: rule cascade deciding the tier. -/
def determine_level (issue : IssueReport) : IssueLevel :=
  if issue.severity = Severity.critical ∨ issue.type = "unknown" then
    IssueLevel.L3
  else if issue.type ∈ L1_ISSUE_TYPES then
    IssueLevel.L1
  else if issue.type ∈ L2_ISSUE_TYPES then
    IssueLevel.L2
  else
    IssueLevel.L2

/-- Buckets returned by `IssueClassifier.classify`. -/
structure ClassifiedIssues where
  L1 : List IssueReport
  L2 : List IssueReport
  L3 : List IssueReport
deriving DecidableEq, Repr

/-- The classifier overwrites `issue.level` with the determined tier. -/
def setLevel (issue : IssueReport) : IssueReport :=
  { issue with level := determine_level issue }

/-- One loop iteration of `IssueClassifier.classify`. -/
def classifyStep (acc : ClassifiedIssues) (issue : IssueReport) : ClassifiedIssues :=
  let issue' := setLevel issue
  match determine_level issue with
  | IssueLevel.L1 => { acc with L1 := acc.L1 ++ [issue'] }
  | IssueLevel.L2 => { acc with L2 := acc.L2 ++ [issue'] }
  | IssueLevel.L3 => { acc with L3 := acc.L3 ++ [issue'] }

/-- `IssueClassifier.classify`: split a list of issues into the three tiers,
updating each issue's `level` field. -/
def classify (issues : List IssueReport) : ClassifiedIssues :=
  issues.foldl classifyStep ⟨[], [], []⟩

/- ===================== auto-fixer (src/cortex/probe/fixer.py) ===================== -/

/-- `FixResult` returned by a remediation handler. -/
structure FixResult where
  success : Bool
  action : String := ""
  details : String := ""
  reason : String := ""
deriving DecidableEq, Repr

/-- Outcome of running one handler coroutine: it either returns a
`FixResult` or raises an exception with a message. -/
inductive HandlerOutcome
  | returns (r : FixResult)
  | throws (msg : String)
deriving DecidableEq, Repr

/-- The issue types with a registered handler in `L1AutoFixer.__init__`
(`self.fixers`).  Note: "old_package_cleanup" is in the classifier's L1 set
but has no entry here. -/
def fixerRegistry : List String :=
  ["disk_space_low", "temp_files_cleanup", "log_rotation_needed", "cache_cleanup"]

/-- `L1AutoFixer.fix`.  `handlerRun issue` is the outcome of awaiting the
registered handler on `issue`; `now` is `datetime.utcnow()`.  Returns `none`
when no fixer is registered for the issue type (the executor then records
nothing for the issue). -/
def fix (handlerRun : IssueReport → HandlerOutcome) (now : Nat)
    (issue : IssueReport) : Option ActionReport :=
  if issue.type ∈ fixerRegistry then
    match handlerRun issue with
    | HandlerOutcome.throws e =>
        some { level := IssueLevel.L1, action := issue.type,
               result := ActionResult.failed,
               details := "Exception: " ++ e, timestamp := now }
    | HandlerOutcome.returns r =>
        if r.success then
          some { level := IssueLevel.L1, action := r.action,
                 result := ActionResult.success,
                 details := r.details, timestamp := now }
        else
          -- `action=result.action or issue.type`: Python `or` falls back on ""
          some { level := IssueLevel.L1,
                 action := if r.action = "" then issue.type else r.action,
                 result := ActionResult.failed,
                 details := r.reason, timestamp := now }
  else
    none

/- ===================== executor (src/cortex/probe/executor.py) ===================== -/

/-- The threshold part of `ProbeConfig` (src/cortex/config/settings.py). -/
structure ProbeConfig where
  threshold_cpu_percent : ℚ
  threshold_memory_percent : ℚ
  threshold_disk_percent : ℚ
deriving DecidableEq, Repr

/-- The issue emitted by `ProbeExecutor.analyze_metrics` for a cpu breach.
The numeric text interpolated into the description is not modelled. -/
def cpuIssue (m : SystemMetrics) (now : Nat) : IssueReport :=
  { level := IssueLevel.L2, type := "cpu_high",
    description := "CPU usage exceeds threshold",
    severity := Severity.medium,
    proposed_fix := some "Investigate high CPU processes",
    details := [("cpu_percent", toString m.cpu_percent)], timestamp := now }

/-- Issue emitted for a memory breach. -/
def memoryIssue (m : SystemMetrics) (now : Nat) : IssueReport :=
  { level := IssueLevel.L2, type := "memory_high",
    description := "Memory usage exceeds threshold",
    severity := Severity.high,
    proposed_fix := some "Restart memory-intensive services or clear cache",
    details := [("memory_percent", toString m.memory_percent)], timestamp := now }

/-- Issue emitted for a disk breach (produced with level L1 in the source;
the classifier re-derives the tier anyway). -/
def diskIssue (m : SystemMetrics) (now : Nat) : IssueReport :=
  { level := IssueLevel.L1, type := "disk_space_low",
    description := "Disk usage exceeds threshold",
    severity := Severity.high,
    proposed_fix := some "Clean up old files and logs",
    details := [("disk_percent", toString m.disk_percent)], timestamp := now }

/-- `ProbeExecutor.analyze_metrics`: threshold rules, in source order
(cpu, then memory, then disk). -/
def analyze_metrics (cfg : ProbeConfig) (m : SystemMetrics) (now : Nat) :
    List IssueReport :=
  (if m.cpu_percent > cfg.threshold_cpu_percent then [cpuIssue m now] else []) ++
  (if m.memory_percent > cfg.threshold_memory_percent then [memoryIssue m now] else []) ++
  (if m.disk_percent > cfg.threshold_disk_percent then [diskIssue m now] else [])

/-- `ProbeExecutor._determine_status`: L3 → critical; else L2 or any
threshold breach → warning; else healthy. -/
def determine_status (cfg : ProbeConfig) (m : SystemMetrics)
    (c : ClassifiedIssues) : AgentStatus :=
  if c.L3 ≠ [] then
    AgentStatus.critical
  else if c.L2 ≠ [] ∨ m.cpu_percent > cfg.threshold_cpu_percent ∨
      m.memory_percent > cfg.threshold_memory_percent ∨
      m.disk_percent > cfg.threshold_disk_percent then
    AgentStatus.warning
  else
    AgentStatus.healthy

/-- `ProbeExecutor.execute` (the report-assembly core): analyze, classify,
auto-fix L1 issues (keeping only handlers that produced a report, as the
`if action_report:` guard does), and assemble the `ProbeReport` whose issue
list is L2 ++ L3 only.  Intent recording and delivery are I/O side effects
outside this function's result. -/
def executeRun (cfg : ProbeConfig) (agentId : String)
    (handlerRun : IssueReport → HandlerOutcome) (now : Nat)
    (m : SystemMetrics) : ProbeReport :=
  let issues := analyze_metrics cfg m now
  let c := classify issues
  let fixed := c.L1.filterMap (fix handlerRun now)
  { agent_id := agentId, timestamp := now,
    status := determine_status cfg m c,
    metrics := m,
    issues := c.L2 ++ c.L3,
    actions_taken := fixed }

/- ===================== local queue (src/cortex/common/queue_manager.py) ===================== -/

/-- `QueueItemStatus`. -/
inductive QStatus
  | pending
  | sending
  | sent
  | failed
deriving DecidableEq, Repr

/-- One row of the `queue_items` table. -/
structure QItem where
  id : Nat
  endpoint : String
  payload : String
  status : QStatus
  retry_count : Nat
  created_at : Nat
  last_error : Option String := none
deriving DecidableEq, Repr

/-- The queue database.  `items` is kept in `created_at` ascending order
(insertion order: new rows are appended); `nextId` is the auto-increment
counter. -/
structure QueueState where
  items : List QItem
  nextId : Nat
deriving DecidableEq, Repr

/-- A row in a terminal state (`sent` or `failed`): the only rows
capacity-eviction and age-cleanup may delete. -/
def isTerminalItem (it : QItem) : Bool :=
  it.status = QStatus.sent ∨ it.status = QStatus.failed

/-- Delete up to `d` oldest terminal rows (the SQL `DELETE ... WHERE status
IN ('sent','failed') ORDER BY created_at ASC LIMIT d` of
`_cleanup_if_full`). -/
def removeOldestTerminal : Nat → List QItem → List QItem
  | _, [] => []
  | 0, l => l
  | d + 1, it :: rest =>
      if isTerminalItem it then removeOldestTerminal d rest
      else it :: removeOldestTerminal (d + 1) rest

/-- `LocalQueueManager._cleanup_if_full`: when `total ≥ max_queue_size`,
delete the oldest `total - max_queue_size + 100` terminal rows. -/
def cleanup_if_full (maxQueueSize : Nat) (s : QueueState) : QueueState :=
  if s.items.length ≥ maxQueueSize then
    { s with items :=
        removeOldestTerminal (s.items.length - maxQueueSize + 100) s.items }
  else
    s

/-- `LocalQueueManager.enqueue`: prune if full, then insert a fresh
`pending` row. -/
def enqueue (maxQueueSize : Nat) (endpoint payload : String) (now : Nat)
    (s : QueueState) : QueueState :=
  let s' := cleanup_if_full maxQueueSize s
  { items := s'.items ++
      [{ id := s'.nextId, endpoint := endpoint, payload := payload,
         status := QStatus.pending, retry_count := 0, created_at := now }],
    nextId := s'.nextId + 1 }

/-- `LocalQueueManager.get_pending_items`: the oldest `pending` rows with
`retry_count < max_retry_count`, at most `limit` of them. -/
def get_pending_items (maxRetryCount limit : Nat) (s : QueueState) :
    List QItem :=
  ((s.items.filter fun it =>
      it.status = QStatus.pending ∧ it.retry_count < maxRetryCount)).take limit

/-- `LocalQueueManager.mark_as_sending`. -/
def mark_as_sending (itemId : Nat) (s : QueueState) : QueueState :=
  { s with items := s.items.map fun it =>
      if it.id = itemId then { it with status := QStatus.sending } else it }

/-- `LocalQueueManager.mark_as_sent`. -/
def mark_as_sent (itemId : Nat) (s : QueueState) : QueueState :=
  { s with items := s.items.map fun it =>
      if it.id = itemId then { it with status := QStatus.sent } else it }

/-- `LocalQueueManager.mark_as_failed`: bump the retry count, record the
error, then set the status to terminal `failed` once the count reaches the
cap and back to `pending` otherwise. -/
def mark_as_failed (maxRetryCount : Nat) (itemId : Nat) (err : String)
    (s : QueueState) : QueueState :=
  { s with items := s.items.map fun it =>
      if it.id = itemId then
        let it' := { it with retry_count := it.retry_count + 1,
                             last_error := some err }
        if it'.retry_count ≥ maxRetryCount then
          { it' with status := QStatus.failed }
        else
          { it' with status := QStatus.pending }
      else it }

/-- `LocalQueueManager._init_database` on an existing database file:
`CREATE TABLE IF NOT EXISTS` / `CREATE INDEX IF NOT EXISTS` leave existing
rows untouched, so a restart preserves the state verbatim. -/
def init_database (s : QueueState) : QueueState := s

/-- Rows of `s` that are not in a terminal state (`pending` or `sending`). -/
def nonTerminalCount (s : QueueState) : Nat :=
  (s.items.filter fun it => ! isTerminalItem it).length

/- ===================== topology (src/cortex/monitor/routers/cluster.py) ===================== -/

/-- The slice of an `Agent` row read by the topology walk. -/
structure AgentRec where
  id : String
  parent_id : Option String
deriving DecidableEq, Repr

/-- `agents_dict` lookup: a Python dict comprehension keyed by id, so the
last record with a given id wins. -/
def lookupAgent (agents : List AgentRec) (aid : String) : Option AgentRec :=
  agents.reverse.find? fun a => a.id = aid

/-- `agent.parent_id` under Python truthiness: `None` and `""` both mean
"no parent" (`if not agent.parent_id`). -/
def parentOf (a : AgentRec) : Option String :=
  match a.parent_id with
  | none => none
  | some p => if p = "" then none else some p

/-- The recursive body of `calculate_level`, with the `visited` set explicit
and fuel bounding the recursion depth.  A revisited node, a dangling
reference and a poisoned parent all yield `-1`, exactly as in the source. -/
def calcLevelAux (agents : List AgentRec) :
    Nat → List String → String → Int
  | 0, _, _ => -1
  | f + 1, visited, aid =>
      if aid ∈ visited then -1
      else
        match lookupAgent agents aid with
        | none => -1
        | some a =>
            match parentOf a with
            | none => 0
            | some p =>
                let pl := calcLevelAux agents f (aid :: visited) p
                if pl = -1 then -1 else pl + 1

/-- `calculate_level(agent_id)` with a fresh visited set.  The fuel
`agents.length + 1` is never exhausted: each recursive call consumes a
distinct id of the agent set (proved below). -/
def calculate_level (agents : List AgentRec) (aid : String) : Int :=
  calcLevelAux agents (agents.length + 1) [] aid

/-- The number of distinct agent ids not yet visited: the measure showing
the fuel of `calculate_level` suffices. -/
def remainingIds (agents : List AgentRec) (visited : List String) : Nat :=
  (((agents.map AgentRec.id).dedup).filter fun i => decide (¬ i ∈ visited)).length

/-- One step of the parent walk as a partial function on node names:
`none` once the walk has stopped (at a root or at a missing node). -/
def chainStep (agents : List AgentRec) : Option String → Option String
  | none => none
  | some aid =>
      match lookupAgent agents aid with
      | none => none
      | some a => parentOf a

/-- The `n`-th node of the parent walk starting at `start`. -/
def chainNode (agents : List AgentRec) (start : String) (n : Nat) :
    Option String :=
  (chainStep agents)^[n] (some start)

/-- The parent chain from `start` revisits a node. -/
def ChainRevisits (agents : List AgentRec) (start : String) : Prop :=
  ∃ i j x, i < j ∧ chainNode agents start i = some x ∧
    chainNode agents start j = some x

/-- The parent chain from `start` reaches an id with no agent record
(a dangling parent reference). -/
def ChainDangles (agents : List AgentRec) (start : String) : Prop :=
  ∃ k d, chainNode agents start k = some d ∧ lookupAgent agents d = none

/-- The parent chain from `start` terminates at a root after exactly `n`
steps. -/
def ChainRootAt (agents : List AgentRec) (start : String) (n : Nat) : Prop :=
  ∃ r a, chainNode agents start n = some r ∧ lookupAgent agents r = some a ∧
    parentOf a = none

/- ===================== string helpers (Python semantics) ===================== -/

/-- Python substring test `needle in hay` on character lists. -/
def listContainsSeq (needle : List Char) : List Char → Bool
  | [] => needle.isEmpty
  | c :: rest => needle.isPrefixOf (c :: rest) || listContainsSeq needle rest

/-- Python `needle in hay` on strings. -/
def strContains (hay needle : String) : Bool :=
  listContainsSeq needle.data hay.data

/-- Python `str.upper()` (ASCII is all the callers need). -/
def strUpper (s : String) : String :=
  String.mk (s.data.map Char.toUpper)

/-- Python `str.replace(pat, repl)` on character lists (all occurrences,
left to right), with explicit fuel so the recursion is structural: every
step consumes at least one character, so `fuel = l.length` never runs
out.  Callers only use non-empty literal patterns. -/
def replaceAllAux (pat repl : List Char) : Nat → List Char → List Char
  | 0, l => l
  | _ + 1, [] => []
  | fuel + 1, c :: rest =>
      if pat.isPrefixOf (c :: rest) ∧ pat ≠ [] then
        repl ++ replaceAllAux pat repl fuel (List.drop (pat.length - 1) rest)
      else
        c :: replaceAllAux pat repl fuel rest

/-- Python `str.replace(pat, repl)` on character lists. -/
def replaceAllList (pat repl l : List Char) : List Char :=
  replaceAllAux pat repl l.length l

/-- Python `str.replace(pat, repl)` on strings. -/
def strReplace (s pat repl : String) : String :=
  String.mk (replaceAllList pat.data repl.data s.data)

/-- Python `s.startswith(pre)`. -/
def strStarts (s pre : String) : Bool :=
  pre.data.isPrefixOf s.data

/-- Whitespace for Python `str.strip()` (the characters occurring in the
parsed LLM responses). -/
def isSpaceChar (c : Char) : Bool :=
  c = ' ' ∨ c = '\t' ∨ c = '\n' ∨ c = '\r'

/-- Drop leading whitespace. -/
def trimLeftChars : List Char → List Char
  | [] => []
  | c :: r => if isSpaceChar c then trimLeftChars r else c :: r

/-- Python `str.strip()` on character lists. -/
def trimChars (l : List Char) : List Char :=
  ((trimLeftChars ((trimLeftChars l).reverse)).reverse)

/-- Python `str.strip()`. -/
def strTrim (s : String) : String :=
  String.mk (trimChars s.data)

/-- Python `s.split(c)` for a one-character separator: never empty, keeps
empty fields. -/
def splitOnChar (c : Char) : List Char → List (List Char)
  | [] => [[]]
  | x :: rest =>
      match splitOnChar c rest with
      | [] => [[x]]
      | g :: gs => if x = c then [] :: g :: gs else (x :: g) :: gs

/-- Python `s.split("\n")`. -/
def strSplitLines (s : String) : List String :=
  (splitOnChar (Char.ofNat 10) s.data).map String.mk

/- ===================== decision engine (src/cortex/monitor/services/decision_engine.py) ===================== -/

/-- The default reason installed before parsing ("cannot parse the LLM
output"). -/
def UNPARSED_REASON : String := "无法解析 LLM 输出"

/-- The reason substituted when the raw output is kept as the analysis
("see the detailed analysis"). -/
def SEE_ANALYSIS_REASON : String := "见详细分析"

/-- Parser state while scanning the LLM response lines:
(decision status, reason, optional analysis). -/
structure ParsedDecision where
  status : String
  reason : String
  analysis : Option String
deriving DecidableEq, Repr

/-- The text examined for "APPROVE"/"REJECT" once a line starts with
"DECISION:": drop the label, strip, uppercase. -/
def decisionText (line : String) : String :=
  strUpper (strTrim (strReplace line "DECISION:" ""))

/-- One iteration of the parsing loop of
`DecisionEngine._parse_llm_response` over an (already stripped) line. -/
def parseLine (st : ParsedDecision) (line : String) : ParsedDecision :=
  if strStarts line "DECISION:" then
    let t := decisionText line
    if strContains t "APPROVE" then { st with status := "approved" }
    else if strContains t "REJECT" then { st with status := "rejected" }
    else st
  else if strStarts line "REASON:" then
    { st with reason := strTrim (strReplace line "REASON:" "") }
  else if strStarts line "ANALYSIS:" then
    { st with analysis := some (strTrim (strReplace line "ANALYSIS:" "")) }
  else st

/-- The stripped lines the parser iterates over:
`llm_output.strip().split("\n")` with a per-line `strip()` applied at use. -/
def parsedLines (llm_output : String) : List String :=
  (strSplitLines (strTrim llm_output)).map strTrim

/-- `DecisionEngine._parse_llm_response`: label-oriented line scan with a
rejected default, falling back to the raw output as analysis when no
REASON line was found. -/
def parse_llm_response (llm_output : String) : ParsedDecision :=
  let st := (parsedLines llm_output).foldl parseLine
    { status := "rejected", reason := UNPARSED_REASON, analysis := none }
  if st.reason = UNPARSED_REASON ∧ llm_output ≠ "" then
    { st with reason := SEE_ANALYSIS_REASON, analysis := some llm_output }
  else
    st

/-- A `Decision` row (src/cortex/monitor/database.py) as persisted by the
decision engine. -/
structure DecisionRec where
  agent_id : String
  issue_type : String
  issue_description : String
  proposed_action : String
  llm_analysis : Option String
  status : String
  reason : String
deriving DecidableEq, Repr

/-- The (status, reason, analysis) triple `analyze_and_decide` derives from
the LLM call: a raised exception is caught and defaults to `rejected` with
the error text in the reason; otherwise the response is parsed. -/
def decideFromLLM (llmResult : Except String String) : ParsedDecision :=
  match llmResult with
  | Except.error e =>
      { status := "rejected", reason := "LLM 分析失败: " ++ e, analysis := none }
  | Except.ok out => parse_llm_response out

/-- `DecisionEngine.analyze_and_decide`: derive the verdict from the LLM
outcome, build the `Decision` row and persist it (returned together with
the updated decisions table).  The function is total in the LLM outcome:
an LLM failure never escapes. -/
def analyze_and_decide (llmResult : Except String String) (agentId : String)
    (issue : IssueReport) (decisions : List DecisionRec) :
    DecisionRec × List DecisionRec :=
  let p := decideFromLLM llmResult
  let d : DecisionRec :=
    { agent_id := agentId, issue_type := issue.type,
      issue_description := issue.description,
      proposed_action := issue.proposed_fix.getD "",
      llm_analysis := p.analysis, status := p.status, reason := p.reason }
  (d, decisions ++ [d])

/- ===================== alert aggregator (src/cortex/monitor/services/alert_aggregator.py) ===================== -/

/-- `AlertAggregator.DEDUP_WINDOW_MINUTES`; times in this development are
counted in minutes. -/
def DEDUP_WINDOW_MINUTES : Nat := 30

/-- An `Alert` row. -/
structure AlertRec where
  id : Nat
  agent_id : String
  level : String
  type : String
  severity : Severity
  description : String
  status : String
  created_at : Nat
  details : List (String × String)
deriving DecidableEq, Repr

/-- The WHERE clause of `_check_duplicate`: same agent and type, open
status, created inside the dedup window ending at `now`. -/
def dupMatches (now : Nat) (agentId ty : String) (a : AlertRec) : Bool :=
  a.agent_id = agentId ∧ a.type = ty ∧
  (a.status = "new" ∨ a.status = "acknowledged") ∧
  a.created_at ≥ now - DEDUP_WINDOW_MINUTES

/-- `AlertAggregator._check_duplicate`: the query orders by `created_at`
descending and fetches at most 5 rows, then tests emptiness; ordering and
the LIMIT cannot change emptiness, so the result is the nonemptiness of
the filtered rows. -/
def check_duplicate (now : Nat) (agentId : String) (issue : IssueReport)
    (alerts : List AlertRec) : Bool :=
  ! (alerts.filter (dupMatches now agentId issue.type)).isEmpty

/-- `AlertAggregator._create_alert`: a fresh `new` alert whose details merge
the proposed fix, the risk assessment and the issue's own details. -/
def create_alert (now : Nat) (alertId : Nat) (agentId : String)
    (issue : IssueReport) : AlertRec :=
  { id := alertId, agent_id := agentId, level := "L3", type := issue.type,
    severity := issue.severity, description := issue.description,
    status := "new", created_at := now,
    details := [("proposed_fix", issue.proposed_fix.getD ""),
                ("risk_assessment", issue.risk_assessment.getD "")] ++
               issue.details }

/-- `AlertAggregator.process_issues`: walk the issue batch, skipping
duplicates and creating (and committing) an alert for the rest.  Returns
the created alerts and the alert table after the batch.  `nextId` mirrors
the database's id assignment. -/
def process_issues (now : Nat) (agentId : String) :
    List IssueReport → List AlertRec → Nat → List AlertRec × List AlertRec × Nat
  | [], alerts, nid => ([], alerts, nid)
  | issue :: rest, alerts, nid =>
      if check_duplicate now agentId issue alerts then
        process_issues now agentId rest alerts nid
      else
        let a := create_alert now nid agentId issue
        let r := process_issues now agentId rest (alerts ++ [a]) (nid + 1)
        (a :: r.1, r.2.1, r.2.2)

/- ===================== ingest: reports + L3 path (src/cortex/monitor/routers/reports.py) ===================== -/

/-- A persisted `Report` row (the fields the dedup claims read). -/
structure ReportRow where
  agent_id : String
  status : AgentStatus
  issues : List IssueReport
  actions_taken : List ActionReport
deriving DecidableEq, Repr

/-- The monitor store slice touched by report ingest's L3 path. -/
structure MonitorState where
  reports : List ReportRow
  alerts : List AlertRec
  nextAlertId : Nat
deriving DecidableEq, Repr

/-- What one ingest did on its L3 path: alerts created (after dedup) and
how many alerts were handed to the notifier (`send_batch_alerts` attempts
one Telegram send per alert; it is only invoked when the created list is
non-empty). -/
structure IngestL3Summary where
  alertsCreated : List AlertRec
  notifierSends : Nat
deriving DecidableEq, Repr

/-- `receive_report`, restricted to the persisted report row and the L3
dispatch (the L2 dispatch is modelled separately below): persist one
`Report` row, feed the L3 issues to the aggregator, and fan created alerts
out to the notifier. -/
def ingestReportAlerts (now : Nat) (r : ProbeReport) (s : MonitorState) :
    IngestL3Summary × MonitorState :=
  let row : ReportRow :=
    { agent_id := r.agent_id, status := r.status, issues := r.issues,
      actions_taken := r.actions_taken }
  let l3 := r.issues.filter fun i => i.level = IssueLevel.L3
  let pr := process_issues now r.agent_id l3 s.alerts s.nextAlertId
  let sends := if pr.1.isEmpty then 0 else pr.1.length
  (⟨pr.1, sends⟩,
   { reports := s.reports ++ [row], alerts := pr.2.1, nextAlertId := pr.2.2 })

/- ===================== ingest: post-commit dispatch (src/cortex/monitor/routers/reports.py) ===================== -/

/-- The decision payload returned by an upstream monitor
(`forward_decision_request`'s `data`). -/
structure DecisionData where
  status : String
  reason : String
  llm_analysis : Option String
deriving DecidableEq, Repr

/-- The success payload `receive_report` returns to the caller. -/
structure IngestResponse where
  report_id : Nat
  l2_decisions : List DecisionRec
  l3_alerts_triggered : Nat
deriving DecidableEq, Repr

/-- Outcomes of the I/O performed during the post-commit dispatch, supplied
as oracles.  `forwardResult` is `forward_decision_request` (it catches all
its own errors and returns `none` on failure); `localDecide` is
`analyze_and_decide` whose own database commit may raise; `aggregate` is
`process_issues` whose commit may raise; `notifierSends` is
`send_batch_alerts`, which catches every exception internally and returns
the success count; the broadcast oracles are each wrapped in a
`try/except` that only logs. -/
structure DispatchEnv where
  broadcastReport : Except String Unit
  upstream : Option String
  forwardResult : IssueReport → Option DecisionData
  localDecide : IssueReport → Except String DecisionRec
  commitAfterForward : Except String Unit
  broadcastDecisions : Except String Unit
  aggregate : Except String (List AlertRec)
  notifierSends : List AlertRec → Nat
  broadcastAlerts : Except String Unit
  invalidateCache : Except String Unit

/-- Python truthiness of `agent.upstream_monitor_url`. -/
def truthyStr : Option String → Bool
  | none => false
  | some s => s ≠ ""

/-- Materialize an upstream decision as a local `Decision` row. -/
def materializeDecision (agentId : String) (issue : IssueReport)
    (dd : DecisionData) : DecisionRec :=
  { agent_id := agentId, issue_type := issue.type,
    issue_description := issue.description,
    proposed_action := issue.proposed_fix.getD "",
    llm_analysis := dd.llm_analysis, status := dd.status,
    reason := dd.reason }

/-- The cluster-mode forwarding loop of `receive_report`: each upstream
failure falls back to the local decision engine, whose exceptions are NOT
caught on this path. -/
def forwardLoop (env : DispatchEnv) (agentId : String) :
    List IssueReport → Except String (List DecisionRec)
  | [] => Except.ok []
  | issue :: rest =>
      match env.forwardResult issue with
      | some dd =>
          (forwardLoop env agentId rest).map
            fun ds => materializeDecision agentId issue dd :: ds
      | none =>
          match env.localDecide issue with
          | Except.ok d => (forwardLoop env agentId rest).map fun ds => d :: ds
          | Except.error e => Except.error e

/-- `DecisionEngine.batch_analyze`: serial, one failing call is logged and
skipped, never aborting the batch. -/
def batchAnalyze (env : DispatchEnv) (issues : List IssueReport) :
    List DecisionRec :=
  issues.filterMap fun i => (env.localDecide i).toOption

/-- The body of `receive_report` after the report transaction committed:
broadcast (errors swallowed), L2 dispatch, L3 dispatch, notifier fan-out,
cache invalidation, response assembly.  An uncaught exception anywhere is
the `Except.error` case. -/
def dispatchAfterCommit (env : DispatchEnv) (reportId : Nat)
    (agentId : String) (issues : List IssueReport) :
    Except String IngestResponse :=
  -- broadcast_report_received: wrapped in try/except, failure only logged
  let _ := env.broadcastReport
  let l2 := issues.filter fun i => i.level = IssueLevel.L2
  let decisionsE : Except String (List DecisionRec) :=
    if l2.isEmpty then Except.ok []
    else if truthyStr env.upstream then
      match forwardLoop env agentId l2 with
      | Except.error e => Except.error e
      | Except.ok ds =>
          match env.commitAfterForward with
          | Except.error e => Except.error e
          | Except.ok _ => Except.ok ds
    else
      Except.ok (batchAnalyze env l2)
  match decisionsE with
  | Except.error e => Except.error e
  | Except.ok ds =>
      -- broadcast_decision_made: wrapped in try/except, failure only logged
      let _ := env.broadcastDecisions
      let l3 := issues.filter fun i => i.level = IssueLevel.L3
      let alertsE : Except String (List AlertRec) :=
        if l3.isEmpty then Except.ok [] else env.aggregate
      match alertsE with
      | Except.error e => Except.error e
      | Except.ok alerts =>
          -- send_batch_alerts never raises; broadcast_alert_triggered wrapped
          let _ := if alerts.isEmpty then 0 else env.notifierSends alerts
          let _ := env.broadcastAlerts
          match env.invalidateCache with
          | Except.error e => Except.error e
          | Except.ok _ =>
              Except.ok { report_id := reportId, l2_decisions := ds,
                          l3_alerts_triggered := alerts.length }

/-- The outer `try/except` of `receive_report` around the post-commit
phase: an escaped exception becomes an HTTP 500, replacing the success
payload (the committed report row remains either way). -/
def receiveReportPost (env : DispatchEnv) (reportId : Nat) (agentId : String)
    (issues : List IssueReport) : Except (Nat × String) IngestResponse :=
  match dispatchAfterCommit env reportId agentId issues with
  | Except.ok r => Except.ok r
  | Except.error e => Except.error (500, "Internal server error: " ++ e)

/- ===================== concrete sample values (test fixtures) ===================== -/

/-- Thresholds (cpu 80, memory 80, disk 90) for the worked examples. -/
def sampleCfg : ProbeConfig := ⟨80, 80, 90⟩

/-- Metrics where disk (92%) is the only threshold breach. -/
def sampleMetrics : SystemMetrics := ⟨50, 50, 92⟩

/-- The successful disk-cleanup result of the L1 self-heal example. -/
def sampleFixResult : FixResult :=
  ⟨true, "cleaned_disk_space", "freed 2.5 GB", ""⟩

/-- Handler oracle whose every run succeeds with `sampleFixResult`. -/
def diskOkHandler : IssueReport → HandlerOutcome :=
  fun _ => HandlerOutcome.returns sampleFixResult

/-- An issue of type "old_package_cleanup" (severity below critical). -/
def opcIssue : IssueReport :=
  ⟨IssueLevel.L2, "old_package_cleanup", "stale packages", Severity.low,
   none, none, [], 0⟩

/-- A queue row still awaiting delivery. -/
def samplePendingItem : QItem :=
  ⟨0, "http://monitor/api/v1/reports", "payload", QStatus.pending, 0, 0, none⟩

/-- A queue holding 1100 pending (non-terminal) rows — e.g. after 1100
enqueues during a long network outage, none yet delivered. -/
def overfullPendingState : QueueState :=
  ⟨List.replicate 1100 samplePendingItem, 1100⟩

/-- A critical L3 issue (database connection failure). -/
def critIssue : IssueReport :=
  ⟨IssueLevel.L3, "database_connection_failed", "db down", Severity.critical,
   none, none, [], 0⟩

/-- A probe report carrying one L3 issue. -/
def sampleL3Report : ProbeReport :=
  ⟨"agent-1", 0, AgentStatus.critical, sampleMetrics, [critIssue], []⟩

/-- A monitor store with no reports and no alerts. -/
def emptyMonitorState : MonitorState := ⟨[], [], 0⟩

/-- A dispatch environment in which every external interaction succeeds:
no upstream, local decisions approve, aggregation succeeds with no
alerts, notifier reports one send per alert. -/
def benignEnv : DispatchEnv :=
  { broadcastReport := Except.ok (), upstream := none,
    forwardResult := fun _ => none,
    localDecide := fun i =>
      Except.ok ⟨"agent-1", i.type, i.description, "", none, "approved", "ok"⟩,
    commitAfterForward := Except.ok (),
    broadcastDecisions := Except.ok (),
    aggregate := Except.ok [],
    notifierSends := fun l => l.length,
    broadcastAlerts := Except.ok (),
    invalidateCache := Except.ok () }

/-- The benign environment except that the alert aggregator's database
commit raises. -/
def aggFailEnv : DispatchEnv :=
  { benignEnv with aggregate := Except.error "database commit failed" }

/-- A single agent whose parent id references no existing agent. -/
def ghostAgents : List AgentRec := [⟨"a", some "ghost"⟩]

/-- A root agent and one child referencing it. -/
def twoAgents : List AgentRec := [⟨"root", none⟩, ⟨"child", some "root"⟩]

/- ===================== proofs: classifier ===================== -/

theorem setLevel_level (i : IssueReport) : (setLevel i).level = determine_level i := rfl

theorem classify_foldl (issues : List IssueReport) (acc : ClassifiedIssues) :
    issues.foldl classifyStep acc =
      ⟨acc.L1 ++ (issues.map setLevel).filter (fun j => j.level = IssueLevel.L1),
       acc.L2 ++ (issues.map setLevel).filter (fun j => j.level = IssueLevel.L2),
       acc.L3 ++ (issues.map setLevel).filter (fun j => j.level = IssueLevel.L3)⟩ := by
  induction issues generalizing acc with
  | nil => simp
  | cons i rest ih =>
      simp only [List.foldl_cons, List.map_cons, List.filter_cons, ih]
      rcases h : determine_level i with _ | _ | _ <;>
        simp [classifyStep, setLevel_level, h, List.append_assoc]

theorem classify_eq (issues : List IssueReport) :
    classify issues =
      ⟨(issues.map setLevel).filter (fun j => j.level = IssueLevel.L1),
       (issues.map setLevel).filter (fun j => j.level = IssueLevel.L2),
       (issues.map setLevel).filter (fun j => j.level = IssueLevel.L3)⟩ := by
  simpa using classify_foldl issues ⟨[], [], []⟩

theorem classify_L1_eq (issues : List IssueReport) :
    (classify issues).L1 =
      (issues.map setLevel).filter (fun j => j.level = IssueLevel.L1) := by
  rw [classify_eq]

theorem classify_L2_eq (issues : List IssueReport) :
    (classify issues).L2 =
      (issues.map setLevel).filter (fun j => j.level = IssueLevel.L2) := by
  rw [classify_eq]

theorem classify_L3_eq (issues : List IssueReport) :
    (classify issues).L3 =
      (issues.map setLevel).filter (fun j => j.level = IssueLevel.L3) := by
  rw [classify_eq]

theorem levels_filter_length (l : List IssueReport) :
    (l.filter (fun j => j.level = IssueLevel.L1)).length +
      (l.filter (fun j => j.level = IssueLevel.L2)).length +
      (l.filter (fun j => j.level = IssueLevel.L3)).length = l.length := by
  induction l with
  | nil => simp
  | cons j rest ih =>
      rcases h : j.level with _ | _ | _ <;>
        simp [List.filter_cons, h] <;> omega

/-- C8: the classifier maps every `IssueReport` to exactly one tier in
{L1, L2, L3}: the three buckets returned by `classify` partition the
input, each issue lands in the bucket of its determined level (with its
`level` field overwritten to that level, so no issue is in two buckets),
and `determine_level` evaluates the rules in order — severity critical or
type "unknown" gives L3 even when the type is in the L1 or L2 set,
otherwise a type in the L1 set gives L1, otherwise L2 (the L2 set and the
default both yield L2). -/
theorem c8_classifier_total (issues : List IssueReport) :
    ((classify issues).L1.length + (classify issues).L2.length +
        (classify issues).L3.length = issues.length) ∧
    (∀ j ∈ (classify issues).L1, j.level = IssueLevel.L1) ∧
    (∀ j ∈ (classify issues).L2, j.level = IssueLevel.L2) ∧
    (∀ j ∈ (classify issues).L3, j.level = IssueLevel.L3) ∧
    (∀ i ∈ issues,
      setLevel i ∈
        (match determine_level i with
         | IssueLevel.L1 => (classify issues).L1
         | IssueLevel.L2 => (classify issues).L2
         | IssueLevel.L3 => (classify issues).L3) ∧
      (determine_level i = IssueLevel.L3 ↔
        (i.severity = Severity.critical ∨ i.type = "unknown")) ∧
      (i.severity ≠ Severity.critical → i.type ≠ "unknown" →
        i.type ∈ L1_ISSUE_TYPES → determine_level i = IssueLevel.L1) ∧
      (i.severity ≠ Severity.critical → i.type ≠ "unknown" →
        i.type ∉ L1_ISSUE_TYPES → determine_level i = IssueLevel.L2)) := by
  refine ⟨?_, ?_, ?_, ?_, ?_⟩
  · rw [classify_L1_eq, classify_L2_eq, classify_L3_eq]
    simpa using levels_filter_length (issues.map setLevel)
  · rw [classify_L1_eq]
    intro j hj
    exact of_decide_eq_true (List.mem_filter.mp hj).2
  · rw [classify_L2_eq]
    intro j hj
    exact of_decide_eq_true (List.mem_filter.mp hj).2
  · rw [classify_L3_eq]
    intro j hj
    exact of_decide_eq_true (List.mem_filter.mp hj).2
  · intro i hi
    refine ⟨?_, ?_, ?_, ?_⟩
    · have hmem : setLevel i ∈ issues.map setLevel := List.mem_map_of_mem _ hi
      rcases h : determine_level i with _ | _ | _
      · rw [classify_L1_eq]
        exact List.mem_filter.mpr ⟨hmem, by simp [setLevel_level, h]⟩
      · rw [classify_L2_eq]
        exact List.mem_filter.mpr ⟨hmem, by simp [setLevel_level, h]⟩
      · rw [classify_L3_eq]
        exact List.mem_filter.mpr ⟨hmem, by simp [setLevel_level, h]⟩
    · constructor
      · intro h
        by_contra hc
        push_neg at hc
        by_cases h3 : i.type ∈ L1_ISSUE_TYPES <;>
          simp [determine_level, hc.1, hc.2, h3] at h
      · intro h
        simp [determine_level, h]
    · intro h1 h2 h3
      simp [determine_level, h1, h2, h3]
    · intro h1 h2 h3
      simp only [determine_level, h1, h2, h3]
      split <;> simp_all

/- ===================== proofs: LLM response parser / decision engine ===================== -/

theorem parseLine_status_of_not_decision (st : ParsedDecision) (l : String)
    (h : strStarts l "DECISION:" = false) :
    (parseLine st l).status = st.status := by
  simp only [parseLine, h, Bool.false_eq_true, if_false]
  split <;> try rfl
  split <;> rfl

theorem foldl_parseLine_status (lines : List String) (st : ParsedDecision)
    (h : ∀ l ∈ lines, strStarts l "DECISION:" = false) :
    (lines.foldl parseLine st).status = st.status := by
  induction lines generalizing st with
  | nil => rfl
  | cons l rest ih =>
      rw [List.foldl_cons, ih _ (fun x hx => h x (List.mem_cons_of_mem _ hx))]
      exact parseLine_status_of_not_decision st l (h l (List.mem_cons_self _ _))

theorem parseLine_reason_of_not_reason (st : ParsedDecision) (l : String)
    (h : strStarts l "REASON:" = false) :
    (parseLine st l).reason = st.reason := by
  simp only [parseLine, h]
  split
  · split <;> try rfl
    split <;> rfl
  · simp only [Bool.false_eq_true, if_false]
    split <;> rfl

theorem foldl_parseLine_reason (lines : List String) (st : ParsedDecision)
    (h : ∀ l ∈ lines, strStarts l "REASON:" = false) :
    (lines.foldl parseLine st).reason = st.reason := by
  induction lines generalizing st with
  | nil => rfl
  | cons l rest ih =>
      rw [List.foldl_cons, ih _ (fun x hx => h x (List.mem_cons_of_mem _ hx))]
      exact parseLine_reason_of_not_reason st l (h l (List.mem_cons_self _ _))

theorem parseLine_approve (st : ParsedDecision) (l : String)
    (hd : strStarts l "DECISION:" = true)
    (ha : strContains (decisionText l) "APPROVE" = true) :
    (parseLine st l).status = "approved" := by
  simp [parseLine, hd, ha]

theorem parseLine_reject (st : ParsedDecision) (l : String)
    (hd : strStarts l "DECISION:" = true)
    (ha : strContains (decisionText l) "APPROVE" = false)
    (hr : strContains (decisionText l) "REJECT" = true) :
    (parseLine st l).status = "rejected" := by
  simp [parseLine, hd, ha, hr]

theorem parse_llm_response_status (out : String) :
    (parse_llm_response out).status =
      ((parsedLines out).foldl parseLine
        { status := "rejected", reason := UNPARSED_REASON,
          analysis := none }).status := by
  simp only [parse_llm_response]
  split <;> rfl

/-- C10: in `_parse_llm_response` the APPROVE check precedes the REJECT
check.  For every response with a single DECISION line: if its decision
text contains "APPROVE" the parsed status is "approved" — even when the
same text also contains "REJECT", as in "DECISION: DO NOT APPROVE,
REJECT" — and "REJECT" is only consulted when "APPROVE" is absent. -/
theorem c10_approve_precedence :
    (∀ (out : String) (pre : List String) (l : String) (post : List String),
      parsedLines out = pre ++ l :: post →
      (∀ l' ∈ pre, strStarts l' "DECISION:" = false) →
      (∀ l' ∈ post, strStarts l' "DECISION:" = false) →
      strStarts l "DECISION:" = true →
      strContains (decisionText l) "APPROVE" = true →
      (parse_llm_response out).status = "approved") ∧
    (∀ (out : String) (pre : List String) (l : String) (post : List String),
      parsedLines out = pre ++ l :: post →
      (∀ l' ∈ pre, strStarts l' "DECISION:" = false) →
      (∀ l' ∈ post, strStarts l' "DECISION:" = false) →
      strStarts l "DECISION:" = true →
      strContains (decisionText l) "APPROVE" = false →
      strContains (decisionText l) "REJECT" = true →
      (parse_llm_response out).status = "rejected") ∧
    (parse_llm_response
      "DECISION: DO NOT APPROVE, REJECT\nREASON: risky").status = "approved" := by
  refine ⟨?_, ?_, ?_⟩
  · intro out pre l post hsplit hpre hpost hd ha
    rw [parse_llm_response_status, hsplit, List.foldl_append, List.foldl_cons,
      foldl_parseLine_status post _ hpost]
    rw [parseLine_approve _ l hd ha]
  · intro out pre l post hsplit hpre hpost hd ha hr
    rw [parse_llm_response_status, hsplit, List.foldl_append, List.foldl_cons,
      foldl_parseLine_status post _ hpost]
    rw [parseLine_reject _ l hd ha hr]
  · decide

/-- C9: for an L2 issue handled by the decision engine, an LLM exception
yields a `rejected` decision carrying the error text in the reason, and an
unparseable output (no DECISION line) also yields `rejected`, with a
parse-failure indication in the reason when no REASON line exists either;
in every case the decision row is persisted (appended to the decisions
table) and the engine returns normally — the failure never escapes. -/
theorem c9_llm_failure (llmResult : Except String String) (agentId : String)
    (issue : IssueReport) (decisions : List DecisionRec) :
    ((analyze_and_decide llmResult agentId issue decisions).2 =
      decisions ++ [(analyze_and_decide llmResult agentId issue decisions).1]) ∧
    ((analyze_and_decide llmResult agentId issue decisions).1 ∈
      (analyze_and_decide llmResult agentId issue decisions).2) ∧
    (∀ e, llmResult = Except.error e →
      (analyze_and_decide llmResult agentId issue decisions).1.status = "rejected" ∧
      (analyze_and_decide llmResult agentId issue decisions).1.reason =
        "LLM 分析失败: " ++ e) ∧
    (∀ out, llmResult = Except.ok out →
      (∀ l ∈ parsedLines out, strStarts l "DECISION:" = false) →
      (analyze_and_decide llmResult agentId issue decisions).1.status = "rejected") ∧
    (∀ out, llmResult = Except.ok out →
      (∀ l ∈ parsedLines out,
        strStarts l "DECISION:" = false ∧ strStarts l "REASON:" = false) →
      ((analyze_and_decide llmResult agentId issue decisions).1.reason =
          SEE_ANALYSIS_REASON ∨
        (analyze_and_decide llmResult agentId issue decisions).1.reason =
          UNPARSED_REASON)) := by
  refine ⟨rfl, ?_, ?_, ?_, ?_⟩
  · simp [analyze_and_decide]
  · intro e he
    subst he
    exact ⟨rfl, rfl⟩
  · intro out hout hlines
    subst hout
    show (parse_llm_response out).status = "rejected"
    rw [parse_llm_response_status, foldl_parseLine_status _ _ hlines]
  · intro out hout hlines
    subst hout
    show (parse_llm_response out).reason = _ ∨ (parse_llm_response out).reason = _
    have hfold :
        ((parsedLines out).foldl parseLine
          { status := "rejected", reason := UNPARSED_REASON,
            analysis := none }).reason = UNPARSED_REASON :=
      foldl_parseLine_reason _ _ (fun l hl => (hlines l hl).2)
    simp only [parse_llm_response]
    split
    · exact Or.inl rfl
    · exact Or.inr hfold

/-- Witness for C9: at the concrete failing LLM call `Except.error "boom"`
the produced decision is rejected with the error in its reason and is
persisted. -/
theorem c9_llm_failure_witness :
    (analyze_and_decide (Except.error "boom") "agent-1"
        { level := IssueLevel.L2, type := "service_down",
          description := "svc", severity := Severity.medium } []).1.status =
      "rejected" ∧
    (analyze_and_decide (Except.error "boom") "agent-1"
        { level := IssueLevel.L2, type := "service_down",
          description := "svc", severity := Severity.medium } []).1.reason =
      "LLM 分析失败: boom" := by
  exact (c9_llm_failure (Except.error "boom") "agent-1"
    { level := IssueLevel.L2, type := "service_down",
      description := "svc", severity := Severity.medium } []).2.2.1 "boom" rfl

/-- Witness for C10: the parser applied to the concrete response
"DECISION: DO NOT APPROVE, REJECT" followed by a REASON line returns
status "approved", obtained through the general precedence theorem. -/
theorem c10_approve_precedence_witness :
    (parse_llm_response
      "DECISION: DO NOT APPROVE, REJECT\nREASON: risky").status = "approved" := by
  refine c10_approve_precedence.1
    "DECISION: DO NOT APPROVE, REJECT\nREASON: risky"
    [] "DECISION: DO NOT APPROVE, REJECT" ["REASON: risky"] ?_ ?_ ?_ ?_ ?_
  · decide
  · intro l' hl'
    simp at hl'
  · intro l' hl'
    simp at hl'
    subst hl'
    decide
  · decide
  · decide

/-- Witness for C8: on the concrete singleton input the classifier's
buckets partition the issue list. -/
theorem c8_classifier_total_witness :
    (classify [opcIssue]).L1.length + (classify [opcIssue]).L2.length +
      (classify [opcIssue]).L3.length = 1 :=
  (c8_classifier_total [opcIssue]).1

/- ===================== proofs: executor and auto-fixer ===================== -/

theorem level_of_mem_classify_L1 {issues : List IssueReport} {j : IssueReport}
    (hj : j ∈ (classify issues).L1) : j.level = IssueLevel.L1 := by
  rw [classify_L1_eq] at hj
  exact of_decide_eq_true (List.mem_filter.mp hj).2

theorem level_of_mem_classify_L2 {issues : List IssueReport} {j : IssueReport}
    (hj : j ∈ (classify issues).L2) : j.level = IssueLevel.L2 := by
  rw [classify_L2_eq] at hj
  exact of_decide_eq_true (List.mem_filter.mp hj).2

theorem level_of_mem_classify_L3 {issues : List IssueReport} {j : IssueReport}
    (hj : j ∈ (classify issues).L3) : j.level = IssueLevel.L3 := by
  rw [classify_L3_eq] at hj
  exact of_decide_eq_true (List.mem_filter.mp hj).2

theorem fix_isSome_of_registered (handlerRun : IssueReport → HandlerOutcome)
    (now : Nat) (i : IssueReport) (hreg : i.type ∈ fixerRegistry) :
    ∃ a, fix handlerRun now i = some a := by
  simp only [fix, if_pos hreg]
  cases handlerRun i with
  | throws e => exact ⟨_, rfl⟩
  | returns r =>
      cases hr : r.success <;> simp [hr]

/-- C1 (amended): in every executor run the assembled report's issue list
is exactly the L2 issues followed by the L3 issues, so no issue classified
L1 ever appears in it; every L1 issue whose type has a registered handler
yields an `ActionReport` that is included in the report, and a handler
exception becomes a `failed` `ActionReport` rather than propagating.  (As
the counterexample shows, an L1 issue whose type has no registered handler
— "old_package_cleanup" is in the configured L1 set but not in the fixer
registry — produces no `ActionReport` at all.) -/
theorem c1_amended (cfg : ProbeConfig) (agentId : String)
    (handlerRun : IssueReport → HandlerOutcome) (now : Nat)
    (m : SystemMetrics) :
    ((executeRun cfg agentId handlerRun now m).issues =
      (classify (analyze_metrics cfg m now)).L2 ++
        (classify (analyze_metrics cfg m now)).L3) ∧
    (∀ i ∈ (classify (analyze_metrics cfg m now)).L1,
      i ∉ (executeRun cfg agentId handlerRun now m).issues) ∧
    (∀ i ∈ (classify (analyze_metrics cfg m now)).L1,
      i.type ∈ fixerRegistry →
      ∃ a, fix handlerRun now i = some a ∧
        a ∈ (executeRun cfg agentId handlerRun now m).actions_taken) ∧
    (∀ (i : IssueReport) (e : String), i.type ∈ fixerRegistry →
      handlerRun i = HandlerOutcome.throws e →
      fix handlerRun now i =
        some { level := IssueLevel.L1, action := i.type,
               result := ActionResult.failed,
               details := "Exception: " ++ e, timestamp := now }) := by
  refine ⟨rfl, ?_, ?_, ?_⟩
  · intro i hi hmem
    have hL1 : i.level = IssueLevel.L1 := level_of_mem_classify_L1 hi
    rcases List.mem_append.mp hmem with h2 | h3
    · rw [level_of_mem_classify_L2 h2] at hL1
      exact absurd hL1 (by simp)
    · rw [level_of_mem_classify_L3 h3] at hL1
      exact absurd hL1 (by simp)
  · intro i hi hreg
    obtain ⟨a, ha⟩ := fix_isSome_of_registered handlerRun now i hreg
    exact ⟨a, ha, List.mem_filterMap.mpr ⟨i, hi, ha⟩⟩
  · intro i e hreg hthrow
    simp [fix, if_pos hreg, hthrow]

/-- Counterexample for C1 as stated: the issue type "old_package_cleanup"
is in the classifier's configured L1 set (so the issue is classified L1)
but `L1AutoFixer.fix` produces no `ActionReport` for it — the fixer
registry has no handler for that type and returns `None`, whatever the
handler oracle would do. -/
theorem c1_counterexample :
    "old_package_cleanup" ∈ L1_ISSUE_TYPES ∧
    determine_level opcIssue = IssueLevel.L1 ∧
    fix diskOkHandler 0 opcIssue = none := by
  refine ⟨by decide, by decide, by decide⟩

/-- Witness for C1 (amended): in the concrete run with a single disk
breach, the one L1 issue has a registered handler and its `ActionReport`
is in the assembled report. -/
theorem c1_amended_witness :
    ∃ a, fix diskOkHandler 0 (setLevel (diskIssue sampleMetrics 0)) = some a ∧
      a ∈ (executeRun sampleCfg "agent-1" diskOkHandler 0
        sampleMetrics).actions_taken := by
  refine (c1_amended sampleCfg "agent-1" diskOkHandler 0 sampleMetrics).2.2.1
    (setLevel (diskIssue sampleMetrics 0)) ?_ (by decide)
  show setLevel _ ∈ (classify (analyze_metrics _ _ _)).L1
  rw [classify_L1_eq]
  refine List.mem_filter.mpr ⟨List.mem_map_of_mem _ ?_, by decide⟩
  show diskIssue _ 0 ∈ analyze_metrics _ _ 0
  simp [analyze_metrics, sampleCfg, sampleMetrics]
  norm_num

/-- C2 (amended): when the only threshold breach is disk, the executor
emits exactly one issue, classified L1 with type "disk_space_low"; when
its auto-fix succeeds the assembled report has an empty issue list and a
single successful L1 action report — but the overall status is "warning",
not "healthy", because `_determine_status` reports `warning` whenever any
threshold is breached, regardless of the successful fix. -/
theorem c2_amended (cfg : ProbeConfig) (m : SystemMetrics) (agentId : String)
    (handlerRun : IssueReport → HandlerOutcome) (now : Nat) (r : FixResult)
    (hc : ¬ m.cpu_percent > cfg.threshold_cpu_percent)
    (hm : ¬ m.memory_percent > cfg.threshold_memory_percent)
    (hd : m.disk_percent > cfg.threshold_disk_percent)
    (hrun : handlerRun (diskIssue m now) = HandlerOutcome.returns r)
    (hsucc : r.success = true) :
    analyze_metrics cfg m now = [diskIssue m now] ∧
    determine_level (diskIssue m now) = IssueLevel.L1 ∧
    classify (analyze_metrics cfg m now) = ⟨[diskIssue m now], [], []⟩ ∧
    (executeRun cfg agentId handlerRun now m).issues = [] ∧
    (executeRun cfg agentId handlerRun now m).actions_taken =
      [{ level := IssueLevel.L1, action := r.action,
         result := ActionResult.success, details := r.details,
         timestamp := now }] ∧
    (executeRun cfg agentId handlerRun now m).status = AgentStatus.warning := by
  have h1 : analyze_metrics cfg m now = [diskIssue m now] := by
    simp [analyze_metrics, if_neg hc, if_neg hm, if_pos hd]
  have h2 : determine_level (diskIssue m now) = IssueLevel.L1 := rfl
  have hset : setLevel (diskIssue m now) = diskIssue m now := rfl
  have h3 : classify (analyze_metrics cfg m now) =
      ⟨[diskIssue m now], [], []⟩ := by
    rw [h1]
    rfl
  have hfix : fix handlerRun now (diskIssue m now) =
      some { level := IssueLevel.L1, action := r.action,
             result := ActionResult.success, details := r.details,
             timestamp := now } := by
    rw [fix, if_pos (show (diskIssue m now).type ∈ fixerRegistry by
      simp [diskIssue, fixerRegistry]), hrun]
    simp [hsucc]
  refine ⟨h1, h2, h3, ?_, ?_, ?_⟩
  · show (classify (analyze_metrics cfg m now)).L2 ++
      (classify (analyze_metrics cfg m now)).L3 = []
    rw [h3]
    rfl
  · show ((classify (analyze_metrics cfg m now)).L1).filterMap
      (fix handlerRun now) = _
    rw [h3]
    simp [List.filterMap_cons, hfix]
  · show determine_status cfg m (classify (analyze_metrics cfg m now)) = _
    rw [h3]
    simp [determine_status, hd]

/-- Counterexample for C2 as stated: with thresholds (80, 80, 90) and
metrics (50, 50, 92) — disk the only breach — and a successful disk fix,
the report has an empty issue list and one successful action, yet the
overall status is `warning`, not the claimed `healthy`. -/
theorem c2_counterexample :
    (executeRun sampleCfg "agent-1" diskOkHandler 0 sampleMetrics).issues = [] ∧
    (executeRun sampleCfg "agent-1" diskOkHandler 0
      sampleMetrics).actions_taken.length = 1 ∧
    (executeRun sampleCfg "agent-1" diskOkHandler 0 sampleMetrics).status =
      AgentStatus.warning ∧
    AgentStatus.warning ≠ AgentStatus.healthy := by
  refine ⟨by decide, by decide, by decide, by decide⟩

/-- Witness for C2 (amended) at the concrete single-disk-breach run. -/
theorem c2_amended_witness :
    (executeRun sampleCfg "agent-1" diskOkHandler 0 sampleMetrics).issues = [] ∧
    (executeRun sampleCfg "agent-1" diskOkHandler 0 sampleMetrics).status =
      AgentStatus.warning := by
  have h := c2_amended sampleCfg sampleMetrics "agent-1" diskOkHandler 0
    sampleFixResult (by norm_num [sampleCfg, sampleMetrics])
    (by norm_num [sampleCfg, sampleMetrics])
    (by norm_num [sampleCfg, sampleMetrics]) rfl rfl
  exact ⟨h.2.2.2.1, h.2.2.2.2.2⟩

/- ===================== proofs: local queue ===================== -/

theorem removeOldestTerminal_of_no_terminal (d : Nat) (l : List QItem)
    (h : ∀ it ∈ l, isTerminalItem it = false) :
    removeOldestTerminal d l = l := by
  induction l generalizing d with
  | nil => cases d <;> rfl
  | cons it rest ih =>
      cases d with
      | zero => rfl
      | succ d =>
          have hit := h it (List.mem_cons_self _ _)
          simp only [removeOldestTerminal, hit, Bool.false_eq_true, if_false]
          rw [ih _ (fun x hx => h x (List.mem_cons_of_mem _ hx))]

theorem length_removeOldestTerminal (d : Nat) (l : List QItem) :
    (removeOldestTerminal d l).length =
      l.length - min d (l.filter isTerminalItem).length := by
  induction l generalizing d with
  | nil => cases d <;> simp [removeOldestTerminal]
  | cons it rest ih =>
      cases d with
      | zero => simp [removeOldestTerminal]
      | succ d =>
          cases hit : isTerminalItem it
          · have h1 : removeOldestTerminal (d + 1) (it :: rest) =
                it :: removeOldestTerminal (d + 1) rest := by
              simp [removeOldestTerminal, hit]
            rw [h1, List.filter_cons, hit]
            have hT := List.length_filter_le isTerminalItem rest
            simp only [Bool.false_eq_true, if_false, List.length_cons, ih]
            omega
          · have h1 : removeOldestTerminal (d + 1) (it :: rest) =
                removeOldestTerminal d rest := by
              simp [removeOldestTerminal, hit]
            rw [h1, List.filter_cons, hit]
            have hT := List.length_filter_le isTerminalItem rest
            simp only [if_true, List.length_cons, ih]
            omega

theorem length_filter_terminal_split (l : List QItem) :
    (l.filter isTerminalItem).length +
      (l.filter fun it => ! isTerminalItem it).length = l.length := by
  induction l with
  | nil => simp
  | cons it rest ih =>
      cases hit : isTerminalItem it <;>
        simp [List.filter_cons, hit] <;> omega

theorem enqueue_items_length (cap : Nat) (endpoint payload : String)
    (now : Nat) (s : QueueState) :
    (enqueue cap endpoint payload now s).items.length =
      (cleanup_if_full cap s).items.length + 1 := by
  simp [enqueue]

/-- C3 (amended): after any `enqueue` the total number of rows is bounded
by `max capacity (non-terminal-before + 1)`; in particular the claimed
`capacity + slack` bound holds whenever at most `capacity + 99` rows were
non-terminal before the call.  (Capacity pruning deletes only terminal
rows, so — as the counterexample shows — the claimed unconditional bound
fails when more than `capacity + slack` rows are pending or sending.) -/
theorem c3_amended (cap : Nat) (endpoint payload : String) (now : Nat)
    (s : QueueState) :
    ((enqueue cap endpoint payload now s).items.length ≤
      max cap (nonTerminalCount s + 1)) ∧
    (nonTerminalCount s + 1 ≤ cap + 100 →
      (enqueue cap endpoint payload now s).items.length ≤ cap + 100) := by
  have hsplit := length_filter_terminal_split s.items
  have hmain : (enqueue cap endpoint payload now s).items.length ≤
      max cap (nonTerminalCount s + 1) := by
    rw [enqueue_items_length]
    by_cases hge : s.items.length ≥ cap
    · have hc : (cleanup_if_full cap s).items =
          removeOldestTerminal (s.items.length - cap + 100) s.items := by
        simp [cleanup_if_full, if_pos hge]
      rw [hc, length_removeOldestTerminal]
      simp only [nonTerminalCount] at hsplit ⊢
      omega
    · have hc : cleanup_if_full cap s = s := by
        simp [cleanup_if_full, if_neg hge]
      rw [hc]
      simp only [nonTerminalCount] at hsplit ⊢
      omega
  refine ⟨hmain, fun hnt => le_trans hmain ?_⟩
  omega

/-- Counterexample for C3 as stated: with the default capacity 1000 and a
queue of 1100 rows that are all `pending` (non-terminal), `enqueue`
deletes nothing — `_cleanup_if_full` only deletes `sent`/`failed` rows —
and the total reaches 1101 > capacity + slack = 1100. -/
theorem c3_counterexample :
    (enqueue 1000 "http://monitor/api/v1/reports" "payload" 0
      overfullPendingState).items.length = 1101 ∧
    1000 + 100 < 1101 := by
  have hlen : overfullPendingState.items.length = 1100 := by
    show (List.replicate 1100 samplePendingItem).length = 1100
    rw [List.length_replicate]
  have hnt : ∀ it ∈ overfullPendingState.items, isTerminalItem it = false := by
    intro it hit
    rw [List.eq_of_mem_replicate hit]
    decide
  have hc : (cleanup_if_full 1000 overfullPendingState).items =
      overfullPendingState.items := by
    simp only [cleanup_if_full, if_pos (by omega : overfullPendingState.items.length ≥ 1000)]
    exact removeOldestTerminal_of_no_terminal _ _ hnt
  refine ⟨?_, by omega⟩
  rw [enqueue_items_length, hc, hlen]

/-- Witness for C3 (amended): on the empty queue with capacity 2 the
pruned-enqueue bound evaluates and gives a total of at most 102. -/
theorem c3_amended_witness :
    nonTerminalCount ⟨[], 0⟩ + 1 ≤ 2 + 100 ∧
    (enqueue 2 "http://monitor/api/v1/reports" "payload" 0
      ⟨[], 0⟩).items.length ≤ 2 + 100 := by
  refine ⟨by decide, ?_⟩
  exact (c3_amended 2 "http://monitor/api/v1/reports" "payload" 0
    ⟨[], 0⟩).2 (by decide)

/-- C4: the code loses `sending` rows.  A row left in status `sending` by
a crash during delivery survives the restart verbatim (`_init_database`
only issues CREATE IF NOT EXISTS), but `get_pending_items` selects rows
with `status = 'pending'` only and nothing ever resets `sending` to
`pending`, so the row is never returned — for any limit and any retry cap
— and can never reach a terminal state, contradicting the documented
invariant that a recovered `sending` item is re-attempted as if
`pending`. -/
theorem c4_stuck_sending (maxRetryCount limit : Nat)
    (endpoint payload : String) (t : Nat) :
    get_pending_items maxRetryCount limit
      (init_database ⟨[⟨1, endpoint, payload, QStatus.sending, 0, t, none⟩], 2⟩)
      = [] := by
  simp [get_pending_items, init_database, List.filter_cons]

/- ===================== proofs: alert aggregator dedup ===================== -/

theorem check_duplicate_of_mem (now : Nat) (aid : String) (issue : IssueReport)
    (alerts : List AlertRec) (a : AlertRec) (ha : a ∈ alerts)
    (hm : dupMatches now aid issue.type a = true) :
    check_duplicate now aid issue alerts = true := by
  have hmem : a ∈ alerts.filter (dupMatches now aid issue.type) :=
    List.mem_filter.mpr ⟨ha, hm⟩
  have hne : alerts.filter (dupMatches now aid issue.type) ≠ [] :=
    List.ne_nil_of_mem hmem
  simp [check_duplicate, List.isEmpty_iff, hne]

theorem exists_of_check_duplicate (now : Nat) (aid : String)
    (issue : IssueReport) (alerts : List AlertRec)
    (h : check_duplicate now aid issue alerts = true) :
    ∃ a ∈ alerts, dupMatches now aid issue.type a = true := by
  have hne : alerts.filter (dupMatches now aid issue.type) ≠ [] := by
    intro hnil
    simp [check_duplicate, hnil] at h
  obtain ⟨a, ha⟩ := List.exists_mem_of_ne_nil _ hne
  exact ⟨a, (List.mem_filter.mp ha).1, (List.mem_filter.mp ha).2⟩

theorem process_issues_alerts_append (now : Nat) (aid : String) :
    ∀ (issues : List IssueReport) (alerts : List AlertRec) (nid : Nat),
    (process_issues now aid issues alerts nid).2.1 =
      alerts ++ (process_issues now aid issues alerts nid).1 := by
  intro issues
  induction issues with
  | nil => intro alerts nid; simp [process_issues]
  | cons issue rest ih =>
      intro alerts nid
      by_cases hd : check_duplicate now aid issue alerts
      · simp only [process_issues, if_pos hd]
        exact ih alerts nid
      · simp only [process_issues, if_neg hd]
        rw [ih (alerts ++ [create_alert now nid aid issue]) (nid + 1)]
        simp

theorem process_issues_covers (now : Nat) (aid : String) :
    ∀ (issues : List IssueReport) (alerts : List AlertRec) (nid : Nat),
    (∀ a ∈ alerts, a.agent_id = aid → a.status = "new" ∧ a.created_at = now) →
    ∀ i ∈ issues,
      ∃ a ∈ (process_issues now aid issues alerts nid).2.1,
        a.agent_id = aid ∧ a.type = i.type ∧ a.status = "new" ∧
        a.created_at = now := by
  intro issues
  induction issues with
  | nil => intro alerts nid _ i hi; exact absurd hi (by simp)
  | cons issue rest ih =>
      intro alerts nid hinv i hi
      by_cases hd : check_duplicate now aid issue alerts
      · simp only [process_issues, if_pos hd]
        rcases List.mem_cons.mp hi with hieq | hirest
        · subst hieq
          obtain ⟨a, ha, hm⟩ := exists_of_check_duplicate now aid i alerts hd
          have hp := of_decide_eq_true hm
          obtain ⟨hag, hty, _, _⟩ := hp
          obtain ⟨hst, hcr⟩ := hinv a ha hag
          refine ⟨a, ?_, hag, hty.symm ▸ rfl, hst, hcr⟩
          · rw [process_issues_alerts_append]
            exact List.mem_append_left _ ha
        · exact ih alerts nid hinv i hirest
      · simp only [process_issues, if_neg hd]
        have hinv' : ∀ a ∈ alerts ++ [create_alert now nid aid issue],
            a.agent_id = aid → a.status = "new" ∧ a.created_at = now := by
          intro a ha hag
          rcases List.mem_append.mp ha with hold | hnew
          · exact hinv a hold hag
          · rw [List.mem_singleton.mp hnew]
            exact ⟨rfl, rfl⟩
        rcases List.mem_cons.mp hi with hieq | hirest
        · subst hieq
          refine ⟨create_alert now nid aid i, ?_, rfl, rfl, rfl, rfl⟩
          rw [process_issues_alerts_append]
          exact List.mem_append_left _ (List.mem_append_right _ (by simp))
        · exact ih (alerts ++ [create_alert now nid aid issue]) (nid + 1)
            hinv' i hirest

theorem process_issues_all_dup (now : Nat) (aid : String) :
    ∀ (issues : List IssueReport) (alerts : List AlertRec) (nid : Nat),
    (∀ i ∈ issues, check_duplicate now aid i alerts = true) →
    process_issues now aid issues alerts nid = ([], alerts, nid) := by
  intro issues
  induction issues with
  | nil => intro alerts nid _; rfl
  | cons issue rest ih =>
      intro alerts nid h
      have hd : check_duplicate now aid issue alerts = true :=
        h issue (List.mem_cons_self _ _)
      simp only [process_issues, if_pos hd]
      exact ih alerts nid (fun i hi => h i (List.mem_cons_of_mem _ hi))

/-- C7: ingesting the same `ProbeReport` twice — the second ingest within
the 30-minute dedup window of the first, the first ingest's alerts all
still open (nothing resolves them in between) — appends two `Report` rows
but leaves the alert table exactly as after the first ingest: the second
ingest creates no alert for any (agent, type) that already has an open
alert in the window, and hands the notifier zero alerts, so no new sends
are triggered. -/
theorem c7_dedup (s0 : MonitorState) (r : ProbeReport) (t1 t2 : Nat)
    (hfresh : ∀ a ∈ s0.alerts, a.agent_id ≠ r.agent_id)
    (ht : t2 - DEDUP_WINDOW_MINUTES ≤ t1) :
    ((ingestReportAlerts t2 r (ingestReportAlerts t1 r s0).2).2.reports.length =
      s0.reports.length + 2) ∧
    ((ingestReportAlerts t2 r (ingestReportAlerts t1 r s0).2).2.alerts =
      (ingestReportAlerts t1 r s0).2.alerts) ∧
    ((ingestReportAlerts t2 r (ingestReportAlerts t1 r s0).2).1.alertsCreated =
      []) ∧
    ((ingestReportAlerts t2 r (ingestReportAlerts t1 r s0).2).1.notifierSends =
      0) := by
  set l3 := r.issues.filter (fun i => i.level = IssueLevel.L3) with hl3
  have hinv0 : ∀ a ∈ s0.alerts, a.agent_id = r.agent_id →
      a.status = "new" ∧ a.created_at = t1 :=
    fun a ha hag => absurd hag (hfresh a ha)
  have hcover := process_issues_covers t1 r.agent_id l3 s0.alerts
    s0.nextAlertId hinv0
  have hs1alerts : (ingestReportAlerts t1 r s0).2.alerts =
      (process_issues t1 r.agent_id l3 s0.alerts s0.nextAlertId).2.1 := rfl
  have halldup : ∀ i ∈ l3,
      check_duplicate t2 r.agent_id i
        (ingestReportAlerts t1 r s0).2.alerts = true := by
    intro i hi
    obtain ⟨a, ha, hag, hty, hst, hcr⟩ := hcover i hi
    refine check_duplicate_of_mem t2 r.agent_id i _ a (hs1alerts ▸ ha) ?_
    refine decide_eq_true ?_
    refine ⟨hag, hty, Or.inl hst, ?_⟩
    rw [hcr]
    exact ht
  have hprocess := process_issues_all_dup t2 r.agent_id l3
    (ingestReportAlerts t1 r s0).2.alerts
    (ingestReportAlerts t1 r s0).2.nextAlertId halldup
  refine ⟨?_, ?_, ?_, ?_⟩
  · show ((ingestReportAlerts t1 r s0).2.reports ++ [_]).length = _
    have : (ingestReportAlerts t1 r s0).2.reports = s0.reports ++ [_] := rfl
    rw [List.length_append, this, List.length_append]
    simp
  · show (process_issues t2 r.agent_id l3
      (ingestReportAlerts t1 r s0).2.alerts
      (ingestReportAlerts t1 r s0).2.nextAlertId).2.1 = _
    rw [hprocess]
  · show (process_issues t2 r.agent_id l3
      (ingestReportAlerts t1 r s0).2.alerts
      (ingestReportAlerts t1 r s0).2.nextAlertId).1 = []
    rw [hprocess]
  · show (if (process_issues t2 r.agent_id l3
        (ingestReportAlerts t1 r s0).2.alerts
        (ingestReportAlerts t1 r s0).2.nextAlertId).1.isEmpty then 0
      else (process_issues t2 r.agent_id l3
        (ingestReportAlerts t1 r s0).2.alerts
        (ingestReportAlerts t1 r s0).2.nextAlertId).1.length) = 0
    rw [hprocess]
    rfl

/-- Witness for C7: the concrete report with one critical L3 issue
ingested at t=100 and again at t=120 into an empty monitor store: two
report rows, unchanged alert table, no alert created and no notifier send
on the second ingest. -/
theorem c7_dedup_witness :
    ((ingestReportAlerts 120 sampleL3Report
        (ingestReportAlerts 100 sampleL3Report
          emptyMonitorState).2).2.reports.length =
      emptyMonitorState.reports.length + 2) ∧
    ((ingestReportAlerts 120 sampleL3Report
        (ingestReportAlerts 100 sampleL3Report
          emptyMonitorState).2).1.notifierSends = 0) := by
  have h := c7_dedup emptyMonitorState sampleL3Report 100 120
    (by intro a ha; exact absurd ha (by simp [emptyMonitorState]))
    (by decide)
  exact ⟨h.1, h.2.2.2⟩

/- ===================== proofs: post-commit dispatch ===================== -/

theorem forwardLoop_ok (env : DispatchEnv) (aid : String) :
    ∀ issues : List IssueReport,
    (∀ i ∈ issues, (env.forwardResult i).isSome = true ∨
      ∃ d, env.localDecide i = Except.ok d) →
    ∃ ds, forwardLoop env aid issues = Except.ok ds := by
  intro issues
  induction issues with
  | nil => exact fun _ => ⟨[], rfl⟩
  | cons i rest ih =>
      intro h
      obtain ⟨ds, hds⟩ := ih (fun x hx => h x (List.mem_cons_of_mem _ hx))
      cases hf : env.forwardResult i with
      | some dd =>
          exact ⟨materializeDecision aid i dd :: ds, by
            simp only [forwardLoop, hf, hds, Except.map]⟩
      | none =>
          rcases h i (List.mem_cons_self _ _) with hs | ⟨d, hd⟩
          · rw [hf] at hs
            exact absurd hs (by simp)
          · exact ⟨d :: ds, by simp only [forwardLoop, hf, hd, hds, Except.map]⟩

/-- C5 (amended): after the ingest transaction commits, failures of the
live-feed broadcasts, of the notifier (which swallows its own errors) and
of the upstream forwarder (which falls back to the local engine) are never
surfaced: whenever alert aggregation succeeds, cache invalidation
succeeds, and — on the cluster path — the decision persistence succeeds,
the caller receives the success response with the report id and the alert
count, for every outcome of the broadcast and notifier oracles.  (As the
counterexample shows, a failure inside alert aggregation itself does
surface as a 500 even though the report is already committed, so the
claim's "any failure" is too strong.) -/
theorem c5_amended (env : DispatchEnv) (rid : Nat) (aid : String)
    (issues : List IssueReport) (alerts : List AlertRec)
    (hagg : env.aggregate = Except.ok alerts)
    (hcache : env.invalidateCache = Except.ok ())
    (hupstream : truthyStr env.upstream = true →
      env.commitAfterForward = Except.ok () ∧
      ∀ i ∈ issues.filter (fun i => i.level = IssueLevel.L2),
        (env.forwardResult i).isSome = true ∨
        ∃ d, env.localDecide i = Except.ok d) :
    ∃ resp, receiveReportPost env rid aid issues = Except.ok resp ∧
      resp.report_id = rid ∧
      resp.l3_alerts_triggered =
        (if (issues.filter fun i => i.level = IssueLevel.L3).isEmpty then 0
         else alerts.length) := by
  obtain ⟨ds, hds⟩ : ∃ ds,
      (if (issues.filter fun i => i.level = IssueLevel.L2).isEmpty then
        Except.ok []
      else if truthyStr env.upstream then
        match forwardLoop env aid
            (issues.filter fun i => i.level = IssueLevel.L2) with
        | Except.error e => Except.error e
        | Except.ok ds =>
            match env.commitAfterForward with
            | Except.error e => Except.error e
            | Except.ok _ => Except.ok ds
      else
        Except.ok (batchAnalyze env
          (issues.filter fun i => i.level = IssueLevel.L2))) =
      Except.ok ds := by
    by_cases hl2 : (issues.filter fun i => i.level = IssueLevel.L2).isEmpty
    · exact ⟨[], by rw [if_pos hl2]⟩
    · by_cases hup : truthyStr env.upstream = true
      · obtain ⟨fds, hf⟩ := forwardLoop_ok env aid
          (issues.filter fun i => i.level = IssueLevel.L2) (hupstream hup).2
        refine ⟨fds, ?_⟩
        rw [if_neg hl2, if_pos hup, hf, (hupstream hup).1]
      · exact ⟨batchAnalyze env _, by rw [if_neg hl2, if_neg hup]⟩
  obtain ⟨al, hal, hlen⟩ : ∃ al,
      (if (issues.filter fun i => i.level = IssueLevel.L3).isEmpty then
        Except.ok ([] : List AlertRec)
      else env.aggregate) = Except.ok al ∧
      al.length =
        (if (issues.filter fun i => i.level = IssueLevel.L3).isEmpty then 0
         else alerts.length) := by
    by_cases hl3 : (issues.filter fun i => i.level = IssueLevel.L3).isEmpty
    · exact ⟨[], by rw [if_pos hl3], by rw [if_pos hl3]; rfl⟩
    · exact ⟨alerts, by rw [if_neg hl3, hagg], by rw [if_neg hl3]⟩
  refine ⟨{ report_id := rid, l2_decisions := ds,
            l3_alerts_triggered := al.length }, ?_, rfl, hlen⟩
  simp only [receiveReportPost, dispatchAfterCommit]
  rw [hds, hal, hcache]

/-- Counterexample for C5 as stated: with the only issue an L3 one and an
alert aggregator whose database commit fails after the report is already
committed, the caller receives an HTTP 500 — not the success response
with the report id that the claim promises. -/
theorem c5_counterexample :
    receiveReportPost aggFailEnv 7 "agent-1" [critIssue] =
      Except.error (500, "Internal server error: database commit failed") ∧
    ∀ resp : IngestResponse,
      receiveReportPost aggFailEnv 7 "agent-1" [critIssue] ≠
        Except.ok resp := by
  refine ⟨rfl, ?_⟩
  intro resp h
  rw [show receiveReportPost aggFailEnv 7 "agent-1" [critIssue] =
    Except.error (500, "Internal server error: database commit failed")
    from rfl] at h
  exact absurd h (by simp)

/-- Witness for C5 (amended): in the benign environment with no issues the
caller receives the success response with its report id. -/
theorem c5_amended_witness :
    ∃ resp, receiveReportPost benignEnv 3 "agent-1" [] = Except.ok resp ∧
      resp.report_id = 3 := by
  obtain ⟨resp, h1, h2, _⟩ := c5_amended benignEnv 3 "agent-1" [] []
    rfl rfl (by intro h; simp [benignEnv, truthyStr] at h)
  exact ⟨resp, h1, h2⟩

/- ===================== proofs: topology ===================== -/

theorem length_filter_le_filter {α : Type} (l : List α) (p q : α → Bool)
    (hpq : ∀ x, q x = true → p x = true) :
    (l.filter q).length ≤ (l.filter p).length := by
  induction l with
  | nil => simp
  | cons x rest ih =>
      by_cases hq : q x = true
      · simp [List.filter_cons, hq, hpq x hq]
        omega
      · have hq' : q x = false := by
          cases h : q x
          · rfl
          · exact absurd h hq
        cases hp : p x <;> simp [List.filter_cons, hq', hp] <;> omega

theorem length_filter_lt_of_mem {α : Type} (l : List α) (p q : α → Bool)
    (hpq : ∀ x, q x = true → p x = true) (a : α) (ha : a ∈ l)
    (hpa : p a = true) (hqa : q a = false) :
    (l.filter q).length < (l.filter p).length := by
  induction l with
  | nil => exact absurd ha (by simp)
  | cons x rest ih =>
      rcases List.mem_cons.mp ha with hax | harest
      · subst hax
        have hle := length_filter_le_filter rest p q hpq
        simp [List.filter_cons, hpa, hqa]
        omega
      · have hlt := ih harest
        cases hq : q x
        · cases hp : p x <;> simp [List.filter_cons, hq, hp] <;> omega
        · simp [List.filter_cons, hq, hpq x hq]
          omega

theorem mem_ids_of_lookup {agents : List AgentRec} {aid : String}
    {a : AgentRec} (h : lookupAgent agents aid = some a) :
    aid ∈ agents.map AgentRec.id := by
  have h' : agents.reverse.find? (fun b => decide (b.id = aid)) = some a := h
  have hmem : a ∈ agents.reverse := List.mem_of_find?_eq_some h'
  have hpred := List.find?_some h'
  have hid : a.id = aid := by simpa using hpred
  exact List.mem_map.mpr ⟨a, List.mem_reverse.mp hmem, hid⟩

theorem remainingIds_lt {agents : List AgentRec} {visited : List String}
    {aid : String} (hmem : aid ∈ agents.map AgentRec.id)
    (hnv : aid ∉ visited) :
    remainingIds agents (aid :: visited) < remainingIds agents visited := by
  refine length_filter_lt_of_mem _ _ _ ?_ aid ?_ ?_ ?_
  · intro x hx
    have hx' := of_decide_eq_true hx
    exact decide_eq_true (fun hmem' => hx' (List.mem_cons_of_mem _ hmem'))
  · exact List.mem_dedup.mpr hmem
  · exact decide_eq_true hnv
  · exact decide_eq_false (by simp)

theorem chainNode_zero (agents : List AgentRec) (start : String) :
    chainNode agents start 0 = some start := rfl

theorem chainNode_succ_of {agents : List AgentRec} {start aid p : String}
    {a : AgentRec} {k : Nat} (h1 : lookupAgent agents aid = some a)
    (h2 : parentOf a = some p)
    (hk : chainNode agents start k = some aid) :
    chainNode agents start (k + 1) = some p := by
  show (chainStep agents)^[k + 1] (some start) = some p
  rw [Function.iterate_succ_apply']
  show chainStep agents (chainNode agents start k) = some p
  rw [hk]
  simp [chainStep, h1, h2]

theorem calcLevelAux_nonneg_or_neg1 (agents : List AgentRec) :
    ∀ (fuel : Nat) (visited : List String) (aid : String),
    calcLevelAux agents fuel visited aid = -1 ∨
      ∃ n : Nat, calcLevelAux agents fuel visited aid = Int.ofNat n := by
  intro fuel
  induction fuel with
  | zero => intro visited aid; exact Or.inl rfl
  | succ f ih =>
      intro visited aid
      by_cases hv : aid ∈ visited
      · exact Or.inl (by simp [calcLevelAux, hv])
      · cases hlk : lookupAgent agents aid with
        | none => exact Or.inl (by simp [calcLevelAux, hv, hlk])
        | some a =>
            cases hp : parentOf a with
            | none => exact Or.inr ⟨0, by simp [calcLevelAux, hv, hlk, hp]⟩
            | some p =>
                have hred : calcLevelAux agents (f + 1) visited aid =
                    (if calcLevelAux agents f (aid :: visited) p = -1 then -1
                     else calcLevelAux agents f (aid :: visited) p + 1) := by
                  simp [calcLevelAux, hv, hlk, hp]
                rcases ih (aid :: visited) p with hneg | ⟨m, hm⟩
                · exact Or.inl (by rw [hred, if_pos hneg])
                · refine Or.inr ⟨m + 1, ?_⟩
                  rw [hred, if_neg (by rw [hm, Int.ofNat_eq_natCast]; omega), hm]
                  rfl

theorem calcLevelAux_char (agents : List AgentRec) (start : String) :
    ∀ (fuel k : Nat) (visited : List String) (aid : String),
    remainingIds agents visited < fuel →
    (∀ x, x ∈ visited ↔ ∃ j, j < k ∧ chainNode agents start j = some x) →
    chainNode agents start k = some aid →
    ((calcLevelAux agents fuel visited aid = -1 →
      ChainRevisits agents start ∨ ChainDangles agents start) ∧
     (∀ n : Nat, calcLevelAux agents fuel visited aid = Int.ofNat n →
      ChainRootAt agents start (k + n))) := by
  intro fuel
  induction fuel with
  | zero =>
      intro k visited aid hrem _ _
      exact absurd hrem (by omega)
  | succ f ih =>
      intro k visited aid hrem hinv hk
      by_cases hv : aid ∈ visited
      · have hval : calcLevelAux agents (f + 1) visited aid = -1 := by
          simp [calcLevelAux, hv]
        constructor
        · intro _
          left
          obtain ⟨j, hj, hcj⟩ := (hinv aid).mp hv
          exact ⟨j, k, aid, hj, hcj, hk⟩
        · intro n hn
          have hcon := hval.symm.trans hn
          rw [Int.ofNat_eq_natCast] at hcon
          omega
      · cases hlk : lookupAgent agents aid with
        | none =>
            have hval : calcLevelAux agents (f + 1) visited aid = -1 := by
              simp [calcLevelAux, hv, hlk]
            refine ⟨fun _ => Or.inr ⟨k, aid, hk, hlk⟩, ?_⟩
            intro n hn
            have hcon := hval.symm.trans hn
            rw [Int.ofNat_eq_natCast] at hcon
            omega
        | some a =>
            cases hp : parentOf a with
            | none =>
                have hval : calcLevelAux agents (f + 1) visited aid = 0 := by
                  simp [calcLevelAux, hv, hlk, hp]
                constructor
                · intro hneg
                  have hcon := hval.symm.trans hneg
                  omega
                · intro n hn
                  have hcon := hval.symm.trans hn
                  rw [Int.ofNat_eq_natCast] at hcon
                  have hn0 : n = 0 := by omega
                  subst hn0
                  exact ⟨aid, a, by simpa using hk, hlk, hp⟩
            | some p =>
                have hred : calcLevelAux agents (f + 1) visited aid =
                    (if calcLevelAux agents f (aid :: visited) p = -1 then -1
                     else calcLevelAux agents f (aid :: visited) p + 1) := by
                  simp [calcLevelAux, hv, hlk, hp]
                have hrem' : remainingIds agents (aid :: visited) < f := by
                  have := remainingIds_lt (mem_ids_of_lookup hlk) hv
                  omega
                have hinv' : ∀ x, x ∈ aid :: visited ↔
                    ∃ j, j < k + 1 ∧ chainNode agents start j = some x := by
                  intro x
                  constructor
                  · intro hx
                    rcases List.mem_cons.mp hx with hxa | hxv
                    · subst hxa
                      exact ⟨k, Nat.lt_succ_self k, hk⟩
                    · obtain ⟨j, hj, hcj⟩ := (hinv x).mp hxv
                      exact ⟨j, Nat.lt_succ_of_lt hj, hcj⟩
                  · rintro ⟨j, hj, hcj⟩
                    rcases Nat.lt_succ_iff_lt_or_eq.mp hj with hjk | hjk
                    · exact List.mem_cons_of_mem _ ((hinv x).mpr ⟨j, hjk, hcj⟩)
                    · subst hjk
                      have hax : aid = x := Option.some.inj (hk.symm.trans hcj)
                      exact List.mem_cons.mpr (Or.inl hax.symm)
                have hk' : chainNode agents start (k + 1) = some p :=
                  chainNode_succ_of hlk hp hk
                have IH := ih (k + 1) (aid :: visited) p hrem' hinv' hk'
                rcases calcLevelAux_nonneg_or_neg1 agents f (aid :: visited) p
                  with hneg | ⟨m, hm⟩
                · have hval : calcLevelAux agents (f + 1) visited aid = -1 := by
                    rw [hred, if_pos hneg]
                  refine ⟨fun _ => IH.1 hneg, ?_⟩
                  intro n hn
                  have hcon := hval.symm.trans hn
                  rw [Int.ofNat_eq_natCast] at hcon
                  omega
                · have hval : calcLevelAux agents (f + 1) visited aid =
                      Int.ofNat (m + 1) := by
                    rw [hred, if_neg (by rw [hm, Int.ofNat_eq_natCast]; omega),
                      hm]
                    rfl
                  constructor
                  · intro hneg
                    have hcon := hval.symm.trans hneg
                    rw [Int.ofNat_eq_natCast] at hcon
                    omega
                  · intro n hn
                    have heq := hval.symm.trans hn
                    rw [Int.ofNat_eq_natCast, Int.ofNat_eq_natCast] at heq
                    have h2 := IH.2 m hm
                    have hkm : k + 1 + m = k + n := by omega
                    rwa [hkm] at h2

theorem calcLevelAux_shrink (agents : List AgentRec) :
    ∀ (fuel : Nat) (v v' : List String) (x : String) (n : Nat),
    (∀ y ∈ v', y ∈ v) →
    calcLevelAux agents fuel v x = Int.ofNat n →
    calcLevelAux agents fuel v' x = Int.ofNat n := by
  intro fuel
  induction fuel with
  | zero =>
      intro v v' x n _ h
      exfalso
      have hcon : (-1 : Int) = Int.ofNat n := h
      rw [Int.ofNat_eq_natCast] at hcon
      omega
  | succ f ih =>
      intro v v' x n hsub h
      by_cases hv : x ∈ v
      · exfalso
        have hval : calcLevelAux agents (f + 1) v x = -1 := by
          simp [calcLevelAux, hv]
        have hcon := hval.symm.trans h
        rw [Int.ofNat_eq_natCast] at hcon
        omega
      · have hv' : x ∉ v' := fun hx => hv (hsub x hx)
        cases hlk : lookupAgent agents x with
        | none =>
            exfalso
            have hval : calcLevelAux agents (f + 1) v x = -1 := by
              simp [calcLevelAux, hv, hlk]
            have hcon := hval.symm.trans h
            rw [Int.ofNat_eq_natCast] at hcon
            omega
        | some a =>
            cases hp : parentOf a with
            | none =>
                have hval : calcLevelAux agents (f + 1) v x = 0 := by
                  simp [calcLevelAux, hv, hlk, hp]
                have hval' : calcLevelAux agents (f + 1) v' x = 0 := by
                  simp [calcLevelAux, hv', hlk, hp]
                have hcon := hval.symm.trans h
                rw [hval', ← hcon]
            | some p =>
                have hred : calcLevelAux agents (f + 1) v x =
                    (if calcLevelAux agents f (x :: v) p = -1 then -1
                     else calcLevelAux agents f (x :: v) p + 1) := by
                  simp [calcLevelAux, hv, hlk, hp]
                have hred' : calcLevelAux agents (f + 1) v' x =
                    (if calcLevelAux agents f (x :: v') p = -1 then -1
                     else calcLevelAux agents f (x :: v') p + 1) := by
                  simp [calcLevelAux, hv', hlk, hp]
                rcases calcLevelAux_nonneg_or_neg1 agents f (x :: v) p
                  with hneg | ⟨m, hm⟩
                · exfalso
                  rw [hred, if_pos hneg] at h
                  have hcon : (-1 : Int) = Int.ofNat n := h
                  rw [Int.ofNat_eq_natCast] at hcon
                  omega
                · have hsub' : ∀ y ∈ x :: v', y ∈ x :: v := by
                    intro y hy
                    rcases List.mem_cons.mp hy with hyx | hyv
                    · exact List.mem_cons.mpr (Or.inl hyx)
                    · exact List.mem_cons_of_mem _ (hsub y hyv)
                  have hm' := ih (x :: v) (x :: v') p m hsub' hm
                  rw [hred, if_neg (by rw [hm, Int.ofNat_eq_natCast]; omega),
                    hm] at h
                  rw [hred', if_neg (by rw [hm', Int.ofNat_eq_natCast]; omega),
                    hm']
                  exact h

theorem calcLevelAux_fuel_succ (agents : List AgentRec) :
    ∀ (fuel : Nat) (v : List String) (x : String) (n : Nat),
    calcLevelAux agents fuel v x = Int.ofNat n →
    calcLevelAux agents (fuel + 1) v x = Int.ofNat n := by
  intro fuel
  induction fuel with
  | zero =>
      intro v x n h
      exfalso
      have hcon : (-1 : Int) = Int.ofNat n := h
      rw [Int.ofNat_eq_natCast] at hcon
      omega
  | succ f ih =>
      intro v x n h
      by_cases hv : x ∈ v
      · exfalso
        have hval : calcLevelAux agents (f + 1) v x = -1 := by
          simp [calcLevelAux, hv]
        have hcon := hval.symm.trans h
        rw [Int.ofNat_eq_natCast] at hcon
        omega
      · cases hlk : lookupAgent agents x with
        | none =>
            exfalso
            have hval : calcLevelAux agents (f + 1) v x = -1 := by
              simp [calcLevelAux, hv, hlk]
            have hcon := hval.symm.trans h
            rw [Int.ofNat_eq_natCast] at hcon
            omega
        | some a =>
            cases hp : parentOf a with
            | none =>
                have hval : calcLevelAux agents (f + 1) v x = 0 := by
                  simp [calcLevelAux, hv, hlk, hp]
                have hval' : calcLevelAux agents (f + 1 + 1) v x = 0 := by
                  simp [calcLevelAux, hv, hlk, hp]
                have hcon := hval.symm.trans h
                rw [hval', ← hcon]
            | some p =>
                have hred : calcLevelAux agents (f + 1) v x =
                    (if calcLevelAux agents f (x :: v) p = -1 then -1
                     else calcLevelAux agents f (x :: v) p + 1) := by
                  simp [calcLevelAux, hv, hlk, hp]
                have hred' : calcLevelAux agents (f + 1 + 1) v x =
                    (if calcLevelAux agents (f + 1) (x :: v) p = -1 then -1
                     else calcLevelAux agents (f + 1) (x :: v) p + 1) := by
                  simp [calcLevelAux, hv, hlk, hp]
                rcases calcLevelAux_nonneg_or_neg1 agents f (x :: v) p
                  with hneg | ⟨m, hm⟩
                · exfalso
                  rw [hred, if_pos hneg] at h
                  have hcon : (-1 : Int) = Int.ofNat n := h
                  rw [Int.ofNat_eq_natCast] at hcon
                  omega
                · have hm' := ih (x :: v) p m hm
                  rw [hred, if_neg (by rw [hm, Int.ofNat_eq_natCast]; omega),
                    hm] at h
                  rw [hred', if_neg (by rw [hm', Int.ofNat_eq_natCast]; omega),
                    hm']
                  exact h

/-- C6 (amended): for every agent set and every agent `aid` in it (with
record `a`), either `calculate_level` returns a natural number `n` and the
parent walk from `aid` terminates at a root after exactly `n` steps, or it
returns −1 and the walk either revisits a node (a cycle) or reaches a
parent id with no agent record (a dangling reference — the case the claim
as stated omits).  Moreover a parentless agent has level 0 and, when the
level is the natural number `n + 1`, the parent's own
`calculate_level` is `n`. -/
theorem c6_amended (agents : List AgentRec) (aid : String) (a : AgentRec)
    (hlk : lookupAgent agents aid = some a) :
    ((∃ n : Nat, calculate_level agents aid = Int.ofNat n ∧
        ChainRootAt agents aid n) ∨
      (calculate_level agents aid = -1 ∧
        (ChainRevisits agents aid ∨ ChainDangles agents aid))) ∧
    (parentOf a = none → calculate_level agents aid = 0) ∧
    (∀ (p : String) (n : Nat), parentOf a = some p →
      calculate_level agents aid = Int.ofNat (n + 1) →
      calculate_level agents p = Int.ofNat n) := by
  have hrem : remainingIds agents [] < agents.length + 1 := by
    have h1 : remainingIds agents [] ≤
        ((agents.map AgentRec.id).dedup).length :=
      List.length_filter_le _ _
    have h2 : ((agents.map AgentRec.id).dedup).length ≤
        (agents.map AgentRec.id).length :=
      (List.dedup_sublist _).length_le
    rw [List.length_map] at h2
    omega
  have hinv : ∀ x, x ∈ ([] : List String) ↔
      ∃ j, j < 0 ∧ chainNode agents aid j = some x := by
    intro x
    simp
  have hchar := calcLevelAux_char agents aid (agents.length + 1) 0 [] aid
    hrem hinv (chainNode_zero agents aid)
  refine ⟨?_, ?_, ?_⟩
  · rcases calcLevelAux_nonneg_or_neg1 agents (agents.length + 1) [] aid
      with hneg | ⟨n, hn⟩
    · exact Or.inr ⟨hneg, hchar.1 hneg⟩
    · refine Or.inl ⟨n, hn, ?_⟩
      have := hchar.2 n hn
      simpa using this
  · intro hp
    show calcLevelAux agents (agents.length + 1) [] aid = 0
    simp [calcLevelAux, hlk, hp]
  · intro p n hp hcalc
    have hred : calculate_level agents aid =
        (if calcLevelAux agents agents.length [aid] p = -1 then -1
         else calcLevelAux agents agents.length [aid] p + 1) := by
      show calcLevelAux agents (agents.length + 1) [] aid = _
      simp [calcLevelAux, hlk, hp]
    rcases calcLevelAux_nonneg_or_neg1 agents agents.length [aid] p
      with hneg | ⟨m, hm⟩
    · exfalso
      rw [hred, if_pos hneg] at hcalc
      have hcon : (-1 : Int) = Int.ofNat (n + 1) := hcalc
      rw [Int.ofNat_eq_natCast] at hcon
      omega
    · rw [hred, if_neg (by rw [hm, Int.ofNat_eq_natCast]; omega), hm]
        at hcalc
      have hmn : m = n := by
        have : Int.ofNat m + 1 = Int.ofNat (n + 1) := hcalc
        rw [Int.ofNat_eq_natCast, Int.ofNat_eq_natCast] at this
        omega
      subst hmn
      have hshrunk := calcLevelAux_shrink agents agents.length [aid] [] p m
        (by intro y hy; exact absurd hy (by simp)) hm
      exact calcLevelAux_fuel_succ agents agents.length [] p m hshrunk

/-- Counterexample for C6 as stated: a single agent "a" whose `parent_id`
is "ghost", an id with no agent record.  `calculate_level` returns −1,
yet the parent chain never revisits any node — the walk simply reaches a
dangling reference, a case the claim rules out by asserting level −1
occurs only for cycles. -/
theorem c6_counterexample :
    calculate_level ghostAgents "a" = -1 ∧
    ChainDangles ghostAgents "a" ∧
    ¬ ChainRevisits ghostAgents "a" := by
  refine ⟨by decide, ⟨1, "ghost", by decide, by decide⟩, ?_⟩
  rintro ⟨i, j, x, hij, hi, hj⟩
  have habsorb : ∀ t, chainNode ghostAgents "a" (2 + t) = none := by
    intro t
    show (chainStep ghostAgents)^[2 + t] (some "a") = none
    rw [Nat.add_comm, Function.iterate_add_apply]
    rw [show (chainStep ghostAgents)^[2] (some "a") = none from by decide]
    exact Function.iterate_fixed rfl t
  match j, hij with
  | 1, _ =>
      have hi0 : i = 0 := by omega
      subst hi0
      have hxa : x = "a" := by
        have : some "a" = some x := hi
        exact (Option.some.inj this).symm
      have hxg : x = "ghost" := by
        have : some "ghost" = some x := hj
        exact (Option.some.inj this).symm
      rw [hxa] at hxg
      exact absurd hxg (by decide)
  | j + 2, _ =>
      have := habsorb j
      rw [Nat.add_comm 2 j] at this
      rw [this] at hj
      exact absurd hj (by simp)

/-- Witness for C6 (amended): in the two-agent set {root, child→root} the
child's level is 1 and, through the parent-level clause of the theorem,
the root's level evaluates to 0. -/
theorem c6_amended_witness :
    calculate_level twoAgents "root" = Int.ofNat 0 := by
  exact (c6_amended twoAgents "child" ⟨"child", some "root"⟩
    (by decide)).2.2 "root" 0 rfl (by decide)

end Cortex
